import Mathlib

/-!
# Verification of the go-mediawiki core against its specification

This file gives a shallow embedding, in Lean 4, of the core of the
`citadel2024/go-mediawiki` repository: the Wikidata entity/value codec
(`checkpoint.go`, third section: enumerations, `Amount`, `TimeValue`,
`DataValue`, `Entity` and their JSON marshal/unmarshal methods), the
checkpoint manager (`checkpoint.go`, first section), and the line-number
framing helper (`AddLineNumber` / `ParseLineNumber`).

Modelling conventions:

* JSON documents are modelled as a tree (`Json`), not as byte strings;
  objects are association lists keeping the order and possible duplication
  of keys, and Go's `encoding/json` key resolution (last occurrence wins)
  is modelled by `jLookup`.  Struct marshalling emits fields in declaration
  order; `omitempty` is modelled by conditional emission; Go maps are
  modelled as association lists (so the model keeps an order where Go has
  none, which is harmless for the value-level round-trip statements
  proved here).
* Go machine integers are modelled as `Int` (`Nat` where the source value
  is provably non-negative), with explicit range checks where the source
  has them (`strconv.ParseInt` bit size, 32-bit truncation in
  `AddLineNumber`).  Go `float64` fields (globe coordinates) are modelled
  as exact rationals, matching the exactness of Go's float JSON round
  trip for finite values.
* `time.Time` is modelled as a plain record `GoTime` of the calendar
  components passed to `time.Date`; the claims under verification only
  involve in-range dates, for which `time.Date` performs no normalization,
  so the normalization of out-of-range components is not modelled.
* Fallible Go functions returning `error` are modelled with
  `Except String` carrying the error message.  Where a Go error message
  interpolates raw input bytes, the model keeps the stable prefix of the
  message; no claim depends on those suffixes.
* Byte slices are modelled as `List Nat` with entries below 256.
-/

/-! ## Generic helpers: decimal digits, digit strings -/

/-- The ASCII digit character for `n < 10`. -/
def digitChar (n : Nat) : Char := Char.ofNat (48 + n)

/-- Little-endian decimal digits of `n`, with explicit fuel so that the
recursion is structural (the fuel is always instantiated with `n` itself,
which suffices). -/
def natDigitsRev : Nat → Nat → List Nat
  | _, 0 => []
  | 0, _ + 1 => []
  | fuel + 1, n + 1 => (n + 1) % 10 :: natDigitsRev fuel ((n + 1) / 10)

/-- Big-endian decimal digit values of `n` (empty for `n = 0`). -/
def natDigits (n : Nat) : List Nat := (natDigitsRev n n).reverse

/-- The decimal rendering of a natural number, as Go's `strconv`/`fmt`
produce it. -/
def natToDecimalChars (n : Nat) : List Char :=
  if n = 0 then ['0'] else (natDigits n).map digitChar

def natToDecimalString (n : Nat) : String := ⟨natToDecimalChars n⟩

/-- The value of a big-endian list of digit values. -/
def digitsVal (ds : List Nat) : Nat := ds.foldl (fun a d => 10 * a + d) 0

/-- The numeric value of a big-endian list of ASCII digit characters. -/
def digitCharsVal (cs : List Char) : Nat := digitsVal (cs.map (fun c => c.toNat - 48))

/-- Value of a little-endian digit list. -/
def ofDigitsRev : List Nat → Nat
  | [] => 0
  | d :: ds => d + 10 * ofDigitsRev ds

/-! ## The framing helper (`AddLineNumber`, `ParseLineNumber`)

Source: the second file of `src/checkpoint.go` (package `mediawiki`,
imports `bytes`, `encoding/binary`).  Go's `int` is 64-bit; the prefix is
the little-endian encoding of `int32(lineNumber)`, i.e. of
`lineNumber mod 2^32` in the unsigned reading of two's complement. -/

/-- `AddLineNumber(lineNumber, data)`: `binary.Write(buf, LittleEndian,
int32(lineNumber))` followed by the payload. -/
def AddLineNumber (lineNumber : Int) (data : List Nat) : List Nat :=
  let u : Nat := (lineNumber % (2 ^ 32 : Int)).toNat
  [u % 256, u / 256 % 256, u / 256 ^ 2 % 256, u / 256 ^ 3 % 256] ++ data

/-- `ParseLineNumber(data)`: error when fewer than 4 bytes, otherwise the
little-endian `uint32` of the first four bytes (as a Go `int`) and the
remainder. -/
def ParseLineNumber (data : List Nat) : Except String (Int × List Nat) :=
  match data with
  | b0 :: b1 :: b2 :: b3 :: rest =>
      .ok (((b0 + 256 * b1 + 256 ^ 2 * b2 + 256 ^ 3 * b3 : Nat) : Int), rest)
  | _ => .error "data too short to contain line number"

/-! ## The checkpoint manager

Source: `src/checkpoint.go` (first section) and `src/unnamed/part_001`
(an `int64`-typed variant of the same code; the logic is identical, so one
model covers both: counters are `Int`).  The filesystem is modelled inside
the state: `file` is the content of the checkpoint file (`none` when the
file does not exist).  The temp-file-and-rename dance always succeeds in
the model, matching the claims under verification, which are about the
success path.  `time.Now()` is passed in as an opaque instant `now`. -/

structure Checkpoint where
  TotalItems : Int
  SaveTimestamp : Int
  LastItemID : String
  ProcessedPosition : Int
deriving DecidableEq

structure CheckpointConfig where
  SaveInterval : Int
  ItemsThreshold : Int
  CheckpointFile : String
deriving DecidableEq

structure CheckpointManagerState where
  config : CheckpointConfig
  currentCheckpoint : Checkpoint
  itemsSinceLastCheckpoint : Int
  dirty : Bool
  /-- Content of the checkpoint file on disk; `none` = file does not exist. -/
  file : Option Checkpoint
deriving DecidableEq

/-- The three ways the checkpoint file can look at startup. -/
inductive CheckpointFileInit where
  | missing
  | corrupt
  | stored (cp : Checkpoint)
deriving DecidableEq

/-- `NewCheckpointManagerWithConfig`: load the checkpoint file; a missing
file yields the zero `&Checkpoint{}`; an unparsable file panics (modelled
as `.error`). -/
def NewCheckpointManagerWithConfig (config : CheckpointConfig) :
    CheckpointFileInit → Except String CheckpointManagerState
  | .missing =>
      .ok { config := config, currentCheckpoint := ⟨0, 0, "", 0⟩,
            itemsSinceLastCheckpoint := 0, dirty := false, file := none }
  | .corrupt => .error "Failed to load checkpoint"
  | .stored cp =>
      .ok { config := config, currentCheckpoint := cp,
            itemsSinceLastCheckpoint := 0, dirty := false, file := some cp }

/-- `(*CheckpointManager).save`: no-op when clean; otherwise stamp the
snapshot with `now`, write it out, and reset the dirty state. -/
def checkpointSave (now : Int) (st : CheckpointManagerState) : CheckpointManagerState :=
  if !st.dirty then st
  else
    let stamped := { st.currentCheckpoint with SaveTimestamp := now }
    { st with currentCheckpoint := stamped, file := some stamped,
              itemsSinceLastCheckpoint := 0, dirty := false }

/-- `UpdateProgressAndMaybeSave(position, itemID)`: record position and
item id, bump both counters, mark dirty, and flush when the
since-last-flush counter has reached the threshold. -/
def UpdateProgressAndMaybeSave (now : Int) (st : CheckpointManagerState)
    (position : Int) (itemID : String) : CheckpointManagerState :=
  let cp := { st.currentCheckpoint with
                ProcessedPosition := position, LastItemID := itemID,
                TotalItems := st.currentCheckpoint.TotalItems + 1 }
  let st1 := { st with currentCheckpoint := cp,
                       itemsSinceLastCheckpoint := st.itemsSinceLastCheckpoint + 1,
                       dirty := true }
  if st1.itemsSinceLastCheckpoint ≥ st.config.ItemsThreshold then checkpointSave now st1
  else st1

/-- The fresh manager used in the concrete C8 scenario: threshold 2, no
pre-existing file. -/
def cmFresh2 : CheckpointManagerState :=
  { config := ⟨300, 2, "checkpoint.json"⟩, currentCheckpoint := ⟨0, 0, "", 0⟩,
    itemsSinceLastCheckpoint := 0, dirty := false, file := none }

/-! ## The temporal codec (`formatTime`, `parseTime`)

Source: third section of `src/checkpoint.go`.  `TimePrecision` is a Go
`int` (decoding performs no range validation on it), so it is `Int` here,
with the named constants of the Go `const` block. -/

abbrev TimePrecision := Int

def BillionYears : TimePrecision := 0
def HoundredMillionYears : TimePrecision := 1
def TenMillionYears : TimePrecision := 2
def MillionYears : TimePrecision := 3
def HoundredMillenniums : TimePrecision := 4
def TenMillenniums : TimePrecision := 5
def Millennium : TimePrecision := 6
def Century : TimePrecision := 7
def Decade : TimePrecision := 8
def Year : TimePrecision := 9
def Month : TimePrecision := 10
def Day : TimePrecision := 11
def Hour : TimePrecision := 12
def Minute : TimePrecision := 13
def Second : TimePrecision := 14

/-- Model of Go's `time.Time` as produced by
`time.Date(year, month, day, hour, minute, second, 0, time.UTC)`: the
calendar components themselves (astronomical year numbering).  The
normalization `time.Date` applies to out-of-range components is not
modelled; every date handled by the claims is in range. -/
structure GoTime where
  year : Int
  month : Nat
  day : Nat
  hour : Nat
  minute : Nat
  second : Nat
deriving DecidableEq

/-- `fmt.Sprintf("%02d", n)` for the non-negative component values that
occur in `formatTime`. -/
def pad2Chars (n : Nat) : List Char :=
  if n < 100 then [digitChar (n / 10), digitChar (n % 10)] else natToDecimalChars n

/-- The digit part of `fmt.Sprintf("%+05d", year)`: the decimal digits of
`|year|`, zero-padded on the left to at least four digits. -/
def yearAbsChars (a : Nat) : List Char :=
  if a < 10000 then
    [digitChar (a / 1000), digitChar (a / 100 % 10), digitChar (a / 10 % 10),
     digitChar (a % 10)]
  else natToDecimalChars a

/-- `fmt.Sprintf("%+05d", year)`: a mandatory sign followed by the
zero-padded digits. -/
def formatYearChars (year : Int) : List Char :=
  (if year < 0 then '-' else '+') :: yearAbsChars year.natAbs

/-- `formatTime(t, p)`: historical year numbering on output (a stored year
below 1 is decremented), month zeroed below `Month` precision, day zeroed
below `Day` precision. -/
def formatTime (t : GoTime) (p : TimePrecision) : String :=
  let year := if t.year < 1 then t.year - 1 else t.year
  let month := if p < Month then 0 else t.month
  let day := if p < Day then 0 else t.day
  ⟨formatYearChars year ++
    '-' :: (pad2Chars month ++
      '-' :: (pad2Chars day ++
        'T' :: (pad2Chars t.hour ++
          ':' :: (pad2Chars t.minute ++
            ':' :: (pad2Chars t.second ++ ['Z'])))))⟩

/-- The capture groups of the Go regular expression
`^([+-]\d{4,})-(\d{2})-(\d{2})T(\d{2}):(\d{2}):(\d{2})Z$`:
the year sign, the year digit run (length at least 4), and the numeric
values of the five two-digit groups. -/
structure TimeParts where
  negYear : Bool
  yearDigits : List Char
  month : Nat
  day : Nat
  hour : Nat
  minute : Nat
  second : Nat
deriving DecidableEq

/-- Consume `\d{2}` and return its value. -/
def parseTwoDigits : List Char → Option (Nat × List Char)
  | c1 :: c2 :: rest =>
      if c1.isDigit && c2.isDigit then
        some ((c1.toNat - 48) * 10 + (c2.toNat - 48), rest)
      else none
  | _ => none

/-- Consume one expected literal character. -/
def expectChar (c : Char) : List Char → Option (List Char)
  | c' :: rest => if c' = c then some rest else none
  | [] => none

/-- Consume the `[+-]` sign class; `true` means negative. -/
def splitSign : List Char → Option (Bool × List Char)
  | c :: r => if c = '+' then some (false, r) else if c = '-' then some (true, r) else none
  | [] => none

/-- Structural equivalent of matching the anchored time regular expression:
the greedy digit run `\d{4,}` is exactly the maximal digit prefix, since
the following literal `-` is not a digit. -/
def splitTimeText (cs : List Char) : Option TimeParts := do
  let (neg, rest0) ← splitSign cs
  let ds := rest0.takeWhile Char.isDigit
  let rest1 := rest0.dropWhile Char.isDigit
  if ds.length < 4 then none
  else do
    let rest2 ← expectChar '-' rest1
    let (mo, rest3) ← parseTwoDigits rest2
    let rest4 ← expectChar '-' rest3
    let (da, rest5) ← parseTwoDigits rest4
    let rest6 ← expectChar 'T' rest5
    let (ho, rest7) ← parseTwoDigits rest6
    let rest8 ← expectChar ':' rest7
    let (mi, rest9) ← parseTwoDigits rest8
    let rest10 ← expectChar ':' rest9
    let (se, rest11) ← parseTwoDigits rest10
    let rest12 ← expectChar 'Z' rest11
    match rest12 with
    | [] => some ⟨neg, ds, mo, da, ho, mi, se⟩
    | _ => none

/-- The signed value `strconv.ParseInt` computes for the year capture
group (sign character plus digit run). -/
def yearSignedVal (parts : TimeParts) : Int :=
  let v : Int := digitCharsVal parts.yearDigits
  if parts.negYear then -v else v

def int64MaxVal : Int := 9223372036854775807
def int64MinVal : Int := -9223372036854775808

/-- The `time.Date` call at the end of `parseTime`, after the zero month
and zero day have been normalized to 1. -/
def mkGoTime (y : Int) (parts : TimeParts) : GoTime :=
  { year := y,
    month := if parts.month = 0 then 1 else parts.month,
    day := if parts.day = 0 then 1 else parts.day,
    hour := parts.hour, minute := parts.minute, second := parts.second }

/-- `parseTime(t)`: regex match, `ParseInt` of the signed year (bit size 0,
i.e. 64), historical-to-astronomical shift of negative years, rejection of
year 0, and zero-month/zero-day normalization.  The two-digit groups
cannot overflow, so only the year carries a range check. -/
def parseTime (s : String) : Except String GoTime :=
  match splitTimeText s.data with
  | none => .error ("unable to parse time \"" ++ s ++ "\"")
  | some parts =>
      let y := yearSignedVal parts
      if y < int64MinVal ∨ int64MaxVal < y then
        .error ("unable to parse year \"" ++ s ++ "\": value out of range")
      else if y < 0 then .ok (mkGoTime (y + 1) parts)
      else if y = 0 then .error "year cannot be 0"
      else .ok (mkGoTime y parts)

/-- In-range side conditions under which `formatTime` is invertible: the
components are those of a genuine (normalized) `time.Time` in the `int64`
year range, and the sub-precision fields carry the neutral value `1` that
`parseTime` restores, so nothing below the stated precision is lost. -/
def timeRoundTrips (t : GoTime) (p : TimePrecision) : Prop :=
  int64MinVal < t.year ∧ t.year < int64MaxVal ∧
  1 ≤ t.month ∧ t.month ≤ 12 ∧ 1 ≤ t.day ∧ t.day ≤ 31 ∧
  t.hour ≤ 23 ∧ t.minute ≤ 59 ∧ t.second ≤ 59 ∧
  (p < Month → t.month = 1) ∧ (p < Day → t.day = 1)

instance (t : GoTime) (p : TimePrecision) : Decidable (timeRoundTrips t p) := by
  unfold timeRoundTrips; infer_instance

/-! ## The amount codec (`Amount.MarshalJSON` / `Amount.UnmarshalJSON`)

Source: third section of `src/checkpoint.go`.  `Amount` extends `big.Rat`
and is modelled as `ℚ`.  Encoding writes `+` for a non-negative sign and
then `a.String()`, which is `a.FloatString(l + q)` for
`l, q := x.RatPrecision(&a.Rat)`.  Decoding is `big.Rat.SetString`. -/

/-- Count and strip the factors of `p` out of `n` (structural fuel;
`fuel = n` always suffices for `p ≥ 2`). -/
def stripCount (p : Nat) : Nat → Nat → Nat × Nat
  | 0, n => (0, n)
  | fuel + 1, n =>
    if n ≠ 0 ∧ n % p = 0 then
      let r := stripCount p fuel (n / p)
      (r.1 + 1, r.2)
    else (0, n)

/-- The multiplicative order of 10 modulo `r` (for `r` coprime to 10),
searched below `r`; 0 if no exponent works. -/
def multOrder10 (r : Nat) : Nat :=
  match (List.range r).find? (fun i => 10 ^ (i + 1) % r == 1) with
  | some i => i + 1
  | none => 0

/-- Modelled from the spec: `Amount.String()` calls `x.RatPrecision` from
the external `gitlab.com/tozd/go/x` dependency, whose source is not in
this repository.  The spec describes the rendering as using "the precision
implied by the value's own denominator (no forced trailing zeros beyond
what the value requires)": `l` counts the terminating decimal digits after
the point (the 2- and 5-adic content of the denominator) and `q` is the
length of the repeating period (the multiplicative order of 10 modulo the
factor that remains), 0 when the expansion terminates. -/
def ratPrecision (a : ℚ) : Nat × Nat :=
  let d := a.den
  let s2 := stripCount 2 d d
  let s5 := stripCount 5 s2.2 s2.2
  let l := max s2.1 s5.1
  if s5.2 = 1 then (l, 0) else (l, multOrder10 s5.2)

/-- `|a| * 10^k` rounded to the nearest integer, halves away from zero
(the rounding rule of `big.Rat.FloatString`). -/
def ratRoundedScaled (a : ℚ) (k : Nat) : Nat :=
  let m0 := a.num.natAbs * 10 ^ k
  m0 / a.den + (if a.den ≤ 2 * (m0 % a.den) then 1 else 0)

def padLeftZeros (k : Nat) (cs : List Char) : List Char :=
  List.replicate (k - cs.length) '0' ++ cs

/-- `big.Rat.FloatString(k)`: sign, integer part, and (for `k > 0`)
exactly `k` fractional digits. -/
def ratFloatString (a : ℚ) (k : Nat) : List Char :=
  let m := ratRoundedScaled a k
  let sign : List Char := if a.num < 0 then ['-'] else []
  if k = 0 then sign ++ natToDecimalChars m
  else sign ++ natToDecimalChars (m / 10 ^ k) ++
    '.' :: padLeftZeros k (natToDecimalChars (m % 10 ^ k))

/-- `Amount.String()`. -/
def amountString (a : ℚ) : List Char :=
  ratFloatString a ((ratPrecision a).1 + (ratPrecision a).2)

/-- The text produced by `Amount.MarshalJSON` (without the surrounding
JSON quotes): a mandatory `+` when `a.Sign() >= 0`, then `a.String()`
(which itself starts with `-` when negative). -/
def amountEncodeChars (a : ℚ) : List Char :=
  (if 0 ≤ a then ['+'] else []) ++ amountString a

def amountEncode (a : ℚ) : String := ⟨amountEncodeChars a⟩

/-- The exponent suffix of `big.Rat.SetString`'s float form:
`[+-]?digits`. -/
def parseExponentChars (cs : List Char) : Option Int :=
  let (neg, body) :=
    match cs with
    | '+' :: r => (false, r)
    | '-' :: r => (true, r)
    | r => (false, r)
  if body.isEmpty || !body.all Char.isDigit then none
  else some ((if neg then -1 else 1) * (digitCharsVal body : Int))

/-- A decimal exponent applied to a numerator/denominator pair, then
normalized (`mkRat` is the value a `big.Rat` stores). -/
def mkRatWithExp (n : Int) (d : Nat) (ex : Int) : ℚ :=
  if 0 ≤ ex then mkRat (n * 10 ^ ex.toNat) d else mkRat n (d * 10 ^ (-ex).toNat)

/-- Model of `big.Rat.SetString`: an optional sign, then either an integer
`a`, a fraction `a/b` (with `b` a non-zero unsigned integer), or a decimal
`a.b` — the integer and decimal mantissa forms optionally followed by a
decimal exponent.  The entire string must be consumed; the stored value is
the normalized rational. -/
def ratFromChars (cs : List Char) : Option ℚ :=
  let (neg, body) :=
    match cs with
    | '+' :: r => (false, r)
    | '-' :: r => (true, r)
    | r => (false, r)
  let intDs := body.takeWhile Char.isDigit
  let rest := body.dropWhile Char.isDigit
  let signZ : Int := if neg then -1 else 1
  match rest with
  | [] =>
      if intDs.isEmpty then none
      else some (mkRat (signZ * digitCharsVal intDs) 1)
  | '/' :: dens =>
      if intDs.isEmpty then none
      else if dens.isEmpty || !dens.all Char.isDigit then none
      else if digitCharsVal dens = 0 then none
      else some (mkRat (signZ * digitCharsVal intDs) (digitCharsVal dens))
  | '.' :: rest2 =>
      let fracDs := rest2.takeWhile Char.isDigit
      let rest3 := rest2.dropWhile Char.isDigit
      if intDs.isEmpty && fracDs.isEmpty then none
      else
        let n0 : Int := signZ * (digitCharsVal intDs * 10 ^ fracDs.length
          + digitCharsVal fracDs)
        let d0 : Nat := 10 ^ fracDs.length
        match rest3 with
        | [] => some (mkRat n0 d0)
        | e :: rest4 =>
            if e = 'e' ∨ e = 'E' then
              match parseExponentChars rest4 with
              | some ex => some (mkRatWithExp n0 d0 ex)
              | none => none
            else none
  | e :: rest4 =>
      if e = 'e' ∨ e = 'E' then
        if intDs.isEmpty then none
        else
          match parseExponentChars rest4 with
          | some ex => some (mkRatWithExp (signZ * digitCharsVal intDs) 1 ex)
          | none => none
      else none

/-- `Amount.UnmarshalJSON` on the string content: `SetString`, failing
with the source's message when it returns false. -/
def amountFromString (s : String) : Option ℚ := ratFromChars s.data

/-! ## JSON documents

JSON is modelled as a value tree; objects keep field order and possible
duplicate keys.  `jLookup` models `encoding/json`'s key resolution: the
last occurrence of a key wins. -/

inductive Json where
  | null
  | bool (b : Bool)
  | num (q : ℚ)
  | str (s : String)
  | arr (elems : List Json)
  | obj (fields : List (String × Json))

def jLookup (fields : List (String × Json)) (key : String) : Option Json :=
  (fields.reverse.find? (fun kv => kv.1 == key)).map (fun kv => kv.2)

/-- A possibly-omitted field segment of a marshalled object
(`omitempty` fields emit `none`). -/
def optField (key : String) (o : Option Json) : List (String × Json) :=
  match o with
  | some j => [(key, j)]
  | none => []

/-- Tolerant decoding of one struct field: a missing field (or JSON
`null` for the reference-typed fields used here) keeps the zero value. -/
def decodeFieldWith (fields : List (String × Json)) (key : String)
    (dec : Json → Except String α) (dflt : α) : Except String α :=
  match jLookup fields key with
  | none => .ok dflt
  | some j => dec j

/-- Optional (pointer) field: missing or `null` is `nil`. -/
def decodeOptFieldWith (fields : List (String × Json)) (key : String)
    (dec : Json → Except String α) : Except String (Option α) :=
  match jLookup fields key with
  | none => .ok none
  | some .null => .ok none
  | some j => (dec j).map some

def decodeStringField (fields : List (String × Json)) (key : String) :
    Except String String :=
  match jLookup fields key with
  | none => .ok ""
  | some .null => .ok ""
  | some (.str s) => .ok s
  | some _ => .error ("json: cannot unmarshal into string field " ++ key)

def decodeIntField (fields : List (String × Json)) (key : String) :
    Except String Int :=
  match jLookup fields key with
  | none => .ok 0
  | some .null => .ok 0
  | some (.num q) => if q.den = 1 then .ok q.num
      else .error ("json: cannot unmarshal number into int field " ++ key)
  | some _ => .error ("json: cannot unmarshal into int field " ++ key)

def decodeNumField (fields : List (String × Json)) (key : String) :
    Except String ℚ :=
  match jLookup fields key with
  | none => .ok 0
  | some .null => .ok 0
  | some (.num q) => .ok q
  | some _ => .error ("json: cannot unmarshal into float64 field " ++ key)

def decodeJsonString (j : Json) : Except String String :=
  match j with
  | .str s => .ok s
  | _ => .error "json: cannot unmarshal as string"

/-- `x.UnmarshalWithoutUnknownFields`: every present key must be known. -/
def allowedKeys (fields : List (String × Json)) (allowed : List String) : Bool :=
  fields.all (fun kv => allowed.contains kv.1)

def decodeList (dec : Json → Except String α) : List Json → Except String (List α)
  | [] => .ok []
  | j :: js => do
      let a ← dec j
      let as ← decodeList dec js
      .ok (a :: as)

def decodeArr (dec : Json → Except String α) (j : Json) : Except String (List α) :=
  match j with
  | .arr xs => decodeList dec xs
  | .null => .ok []
  | _ => .error "json: cannot unmarshal as array"

def decodeObjMapAux (dec : Json → Except String α) :
    List (String × Json) → Except String (List (String × α))
  | [] => .ok []
  | (k, j) :: rest => do
      let a ← dec j
      let as ← decodeObjMapAux dec rest
      .ok ((k, a) :: as)

/-- A Go `map[string]T` decoded from a JSON object (entry by entry, in
the model keeping the object's order). -/
def decodeObjMap (dec : Json → Except String α) (j : Json) :
    Except String (List (String × α)) :=
  match j with
  | .obj fields => decodeObjMapAux dec fields
  | .null => .ok []
  | _ => .error "json: cannot unmarshal as object"

/-! ## The enumerations of the entity codec -/

inductive EntityType where
  | Item
  | Property
deriving DecidableEq

def marshalEntityType : EntityType → Json
  | .Item => .str "item"
  | .Property => .str "property"

def unmarshalEntityType (j : Json) : Except String EntityType := do
  let s ← decodeJsonString j
  match s with
  | "item" => .ok .Item
  | "property" => .ok .Property
  | _ => .error ("unknown entity type: " ++ s)

inductive WikiBaseEntityType where
  | ItemType
  | PropertyType
  | LexemeType
  | FormType
  | SenseType
deriving DecidableEq

def marshalWikiBaseEntityType : WikiBaseEntityType → Json
  | .ItemType => .str "item"
  | .PropertyType => .str "property"
  | .LexemeType => .str "lexeme"
  | .FormType => .str "form"
  | .SenseType => .str "sense"

def unmarshalWikiBaseEntityType (j : Json) : Except String WikiBaseEntityType := do
  let s ← decodeJsonString j
  match s with
  | "item" => .ok .ItemType
  | "property" => .ok .PropertyType
  | "lexeme" => .ok .LexemeType
  | "form" => .ok .FormType
  | "sense" => .ok .SenseType
  | _ => .error ("unknown wikibase entity type: " ++ s)

inductive StatementType where
  | StatementT
deriving DecidableEq

def marshalStatementType : StatementType → Json
  | .StatementT => .str "statement"

def unmarshalStatementType (j : Json) : Except String StatementType := do
  let s ← decodeJsonString j
  match s with
  | "statement" => .ok .StatementT
  | _ => .error ("unknown statement type: " ++ s)

inductive StatementRank where
  | Preferred
  | Normal
  | Deprecated
deriving DecidableEq

def marshalStatementRank : StatementRank → Json
  | .Preferred => .str "preferred"
  | .Normal => .str "normal"
  | .Deprecated => .str "deprecated"

def unmarshalStatementRank (j : Json) : Except String StatementRank := do
  let s ← decodeJsonString j
  match s with
  | "preferred" => .ok .Preferred
  | "normal" => .ok .Normal
  | "deprecated" => .ok .Deprecated
  | _ => .error ("unknown statement rank: " ++ s)

inductive SnakType where
  | Value
  | SomeValue
  | NoValue
deriving DecidableEq

def marshalSnakType : SnakType → Json
  | .Value => .str "value"
  | .SomeValue => .str "somevalue"
  | .NoValue => .str "novalue"

def unmarshalSnakType (j : Json) : Except String SnakType := do
  let s ← decodeJsonString j
  match s with
  | "value" => .ok .Value
  | "somevalue" => .ok .SomeValue
  | "novalue" => .ok .NoValue
  | _ => .error ("unknown snak type: " ++ s)

inductive DataType where
  | WikiBaseItem
  | ExternalID
  | String
  | Quantity
  | Time
  | GlobeCoordinate
  | CommonsMedia
  | MonolingualText
  | URL
  | GeoShape
  | WikiBaseLexeme
  | WikiBaseSense
  | WikiBaseProperty
  | Math
  | MusicalNotation
  | WikiBaseForm
  | TabularData
deriving DecidableEq

def marshalDataType : DataType → Json
  | .WikiBaseItem => .str "wikibase-item"
  | .ExternalID => .str "external-id"
  | .String => .str "string"
  | .Quantity => .str "quantity"
  | .Time => .str "time"
  | .GlobeCoordinate => .str "globe-coordinate"
  | .CommonsMedia => .str "commonsMedia"
  | .MonolingualText => .str "monolingualtext"
  | .URL => .str "url"
  | .GeoShape => .str "geo-shape"
  | .WikiBaseLexeme => .str "wikibase-lexeme"
  | .WikiBaseSense => .str "wikibase-sense"
  | .WikiBaseProperty => .str "wikibase-property"
  | .Math => .str "math"
  | .MusicalNotation => .str "musical-notation"
  | .WikiBaseForm => .str "wikibase-form"
  | .TabularData => .str "tabular-data"

def unmarshalDataType (j : Json) : Except String DataType := do
  let s ← decodeJsonString j
  match s with
  | "wikibase-item" => .ok .WikiBaseItem
  | "external-id" => .ok .ExternalID
  | "string" => .ok .String
  | "quantity" => .ok .Quantity
  | "time" => .ok .Time
  | "globe-coordinate" => .ok .GlobeCoordinate
  | "commonsMedia" => .ok .CommonsMedia
  | "monolingualtext" => .ok .MonolingualText
  | "url" => .ok .URL
  | "geo-shape" => .ok .GeoShape
  | "wikibase-lexeme" => .ok .WikiBaseLexeme
  | "wikibase-sense" => .ok .WikiBaseSense
  | "wikibase-property" => .ok .WikiBaseProperty
  | "math" => .ok .Math
  | "musical-notation" => .ok .MusicalNotation
  | "wikibase-form" => .ok .WikiBaseForm
  | "tabular-data" => .ok .TabularData
  | _ => .error ("unknown data type: " ++ s)

inductive CalendarModel where
  | Gregorian
  | Julian
deriving DecidableEq

/-- Encode always emits the secure `https://www.wikidata.org/wiki/...`
form. -/
def calendarURI : CalendarModel → String
  | .Gregorian => "https://www.wikidata.org/wiki/Q1985727"
  | .Julian => "https://www.wikidata.org/wiki/Q1985786"

def marshalCalendarModel (c : CalendarModel) : Json := .str (calendarURI c)

/-- Decode accepts both the secure and the `entity` URI for each
calendar. -/
def unmarshalCalendarModel (j : Json) : Except String CalendarModel := do
  let s ← decodeJsonString j
  match s with
  | "https://www.wikidata.org/wiki/Q1985727" => .ok .Gregorian
  | "http://www.wikidata.org/entity/Q1985727" => .ok .Gregorian
  | "https://www.wikidata.org/wiki/Q1985786" => .ok .Julian
  | "http://www.wikidata.org/entity/Q1985786" => .ok .Julian
  | _ => .error ("unknown calendar model: " ++ s)

/-! ## The value union (`DataValue`) -/

structure WikiBaseEntityIDValue where
  entityType : WikiBaseEntityType
  id : String
deriving DecidableEq

structure GlobeCoordinateValue where
  latitude : ℚ
  longitude : ℚ
  precision : ℚ
  globe : String
deriving DecidableEq

structure MonolingualTextValue where
  language : String
  text : String
deriving DecidableEq

structure QuantityValue where
  amount : ℚ
  upperBound : Option ℚ
  lowerBound : Option ℚ
  unit : String
deriving DecidableEq

structure TimeValue where
  time : GoTime
  precision : TimePrecision
  calendar : CalendarModel
deriving DecidableEq

/-- The `Value interface` of the Go `DataValue` struct: exactly one of
the seven variants. -/
inductive DataValue where
  | err (v : String)
  | str (v : String)
  | entityID (v : WikiBaseEntityIDValue)
  | globeCoordinate (v : GlobeCoordinateValue)
  | monolingualText (v : MonolingualTextValue)
  | quantity (v : QuantityValue)
  | time (v : TimeValue)
deriving DecidableEq

/-- `TimeValue.MarshalJSON`. -/
def marshalTimeValue (v : TimeValue) : Json :=
  .obj [("time", .str (formatTime v.time v.precision)),
        ("precision", .num (v.precision : ℚ)),
        ("calendarmodel", marshalCalendarModel v.calendar)]

/-- `TimeValue.UnmarshalJSON` (tolerant struct decode, then `parseTime`;
a parse failure here is propagated as an error). -/
def unmarshalTimeValue (j : Json) : Except String TimeValue :=
  match j with
  | .obj fields => do
      let ts ← decodeStringField fields "time"
      let p ← decodeIntField fields "precision"
      let c ← decodeFieldWith fields "calendarmodel" unmarshalCalendarModel .Gregorian
      match parseTime ts with
      | .error e => .error e
      | .ok t => .ok ⟨t, p, c⟩
  | _ => .error "json: cannot unmarshal as object"

/-- `Amount.UnmarshalJSON` at the JSON level. -/
def unmarshalAmount (j : Json) : Except String ℚ :=
  match j with
  | .str s =>
      match amountFromString s with
      | some q => .ok q
      | none => .error ("cannot parse amount into number: " ++ s)
  | _ => .error "json: cannot unmarshal as string"

def marshalQuantityValue (v : QuantityValue) : Json :=
  .obj ([("amount", .str (amountEncode v.amount))] ++
    optField "upperBound" (v.upperBound.map (fun u => .str (amountEncode u))) ++
    optField "lowerBound" (v.lowerBound.map (fun u => .str (amountEncode u))) ++
    [("unit", .str v.unit)])

def decodeQuantityPayload (j : Json) : Except String QuantityValue :=
  match j with
  | .obj fields =>
      if allowedKeys fields ["amount", "upperBound", "lowerBound", "unit"] then do
        let a ← decodeFieldWith fields "amount" unmarshalAmount 0
        let ub ← decodeOptFieldWith fields "upperBound" unmarshalAmount
        let lb ← decodeOptFieldWith fields "lowerBound" unmarshalAmount
        let u ← decodeStringField fields "unit"
        .ok ⟨a, ub, lb, u⟩
      else .error "json: unknown field"
  | _ => .error "json: cannot unmarshal as object"

def decodeEntityIDPayload (j : Json) : Except String WikiBaseEntityIDValue :=
  match j with
  | .obj fields =>
      if allowedKeys fields ["entity-type", "id", "numeric-id"] then do
        let t ← decodeFieldWith fields "entity-type" unmarshalWikiBaseEntityType .ItemType
        let i ← decodeStringField fields "id"
        let _ ← decodeIntField fields "numeric-id"
        .ok ⟨t, i⟩
      else .error "json: unknown field"
  | _ => .error "json: cannot unmarshal as object"

def decodeGlobePayload (j : Json) : Except String GlobeCoordinateValue :=
  match j with
  | .obj fields =>
      if allowedKeys fields ["latitude", "longitude", "altitude", "precision", "globe"] then do
        let la ← decodeNumField fields "latitude"
        let lo ← decodeNumField fields "longitude"
        let _ ← decodeNumField fields "altitude"
        let pr ← decodeNumField fields "precision"
        let g ← decodeStringField fields "globe"
        .ok ⟨la, lo, pr, g⟩
      else .error "json: unknown field"
  | _ => .error "json: cannot unmarshal as object"

def decodeMonoPayload (j : Json) : Except String MonolingualTextValue :=
  match j with
  | .obj fields =>
      if allowedKeys fields ["language", "text"] then do
        let l ← decodeStringField fields "language"
        let t ← decodeStringField fields "text"
        .ok ⟨l, t⟩
      else .error "json: unknown field"
  | _ => .error "json: cannot unmarshal as object"

def decodeTimePayload (j : Json) : Except String (String × TimePrecision × CalendarModel) :=
  match j with
  | .obj fields =>
      if allowedKeys fields ["time", "precision", "calendarmodel",
          "timezone", "before", "after"] then do
        let ts ← decodeStringField fields "time"
        let p ← decodeIntField fields "precision"
        let c ← decodeFieldWith fields "calendarmodel" unmarshalCalendarModel .Gregorian
        let _ ← decodeIntField fields "timezone"
        let _ ← decodeIntField fields "before"
        let _ ← decodeIntField fields "after"
        .ok (ts, p, c)
      else .error "json: unknown field"
  | _ => .error "json: cannot unmarshal as object"

/-- `DataValue.MarshalJSON`. -/
def marshalDataValue : DataValue → Json
  | .err e => .obj [("error", .str e)]
  | .str s => .obj [("type", .str "string"), ("value", .str s)]
  | .entityID v => .obj [("type", .str "wikibase-entityid"),
      ("value", .obj [("entity-type", marshalWikiBaseEntityType v.entityType),
                      ("id", .str v.id)])]
  | .globeCoordinate v => .obj [("type", .str "globecoordinate"),
      ("value", .obj [("latitude", .num v.latitude), ("longitude", .num v.longitude),
                      ("precision", .num v.precision), ("globe", .str v.globe)])]
  | .monolingualText v => .obj [("type", .str "monolingualtext"),
      ("value", .obj [("language", .str v.language), ("text", .str v.text)])]
  | .quantity v => .obj [("type", .str "quantity"), ("value", marshalQuantityValue v)]
  | .time v => .obj [("type", .str "time"), ("value", marshalTimeValue v)]

/-- `DataValue.UnmarshalJSON`: a tolerant probe of the `type` and `error`
fields; a non-empty `error` short-circuits to an `ErrorValue`; otherwise
strict (unknown-field-rejecting) decoding per discriminator, with the
`time` payload's timestamp soft-failing into an `ErrorValue`. -/
def unmarshalDataValue (j : Json) : Except String DataValue :=
  match j with
  | .obj fields => do
      let ty ← decodeStringField fields "type"
      let er ← decodeStringField fields "error"
      if er ≠ "" then .ok (.err er)
      else
        match ty with
        | "string" =>
            if allowedKeys fields ["type", "value"] then do
              let v ← decodeFieldWith fields "value" decodeJsonString ""
              .ok (.str v)
            else .error "json: unknown field"
        | "wikibase-entityid" =>
            if allowedKeys fields ["type", "value"] then do
              let v ← decodeFieldWith fields "value" decodeEntityIDPayload ⟨.ItemType, ""⟩
              .ok (.entityID v)
            else .error "json: unknown field"
        | "globecoordinate" =>
            if allowedKeys fields ["type", "value"] then do
              let v ← decodeFieldWith fields "value" decodeGlobePayload ⟨0, 0, 0, ""⟩
              .ok (.globeCoordinate v)
            else .error "json: unknown field"
        | "monolingualtext" =>
            if allowedKeys fields ["type", "value"] then do
              let v ← decodeFieldWith fields "value" decodeMonoPayload ⟨"", ""⟩
              .ok (.monolingualText v)
            else .error "json: unknown field"
        | "quantity" =>
            if allowedKeys fields ["type", "value"] then do
              let v ← decodeFieldWith fields "value" decodeQuantityPayload ⟨0, none, none, ""⟩
              .ok (.quantity v)
            else .error "json: unknown field"
        | "time" =>
            if allowedKeys fields ["type", "value"] then do
              let tv ← decodeFieldWith fields "value" decodeTimePayload ("", 0, .Gregorian)
              match parseTime tv.1 with
              | .error e => .ok (.err e)
              | .ok t => .ok (.time ⟨t, tv.2.1, tv.2.2⟩)
            else .error "json: unknown field"
        | _ => .error ("unknown data value type \"" ++ ty ++ "\"")
  | _ => .error "json: cannot unmarshal as object"

/-! ## The entity graph -/

structure LanguageValue where
  language : String
  value : String
deriving DecidableEq

structure SiteLink where
  site : String
  title : String
  badges : List String
  url : String
deriving DecidableEq

structure Snak where
  hash : String
  snaktype : SnakType
  property : String
  datatype : DataType
  datavalue : Option DataValue
deriving DecidableEq

structure Reference where
  hash : String
  snaks : List (String × List Snak)
  snaksOrder : List String
deriving DecidableEq

structure Statement where
  id : String
  type : StatementType
  mainsnak : Snak
  rank : StatementRank
  qualifiers : List (String × List Snak)
  qualifiersOrder : List String
  references : List Reference
deriving DecidableEq

/-- A Wikidata entities JSON dump entity (maps modelled as ordered
association lists). -/
structure Entity where
  id : String
  type : EntityType
  datatype : Option DataType
  labels : List (String × LanguageValue)
  descriptions : List (String × LanguageValue)
  aliases : List (String × List LanguageValue)
  claims : List (String × List Statement)
  sitelinks : List (String × SiteLink)
  lastrevid : Int
deriving DecidableEq

def marshalLanguageValue (lv : LanguageValue) : Json :=
  .obj [("language", .str lv.language), ("value", .str lv.value)]

def unmarshalLanguageValue (j : Json) : Except String LanguageValue :=
  match j with
  | .obj fields => do
      let l ← decodeStringField fields "language"
      let v ← decodeStringField fields "value"
      .ok ⟨l, v⟩
  | _ => .error "json: cannot unmarshal as object"

def marshalStringList (xs : List String) : Json := .arr (xs.map Json.str)

/-- The empty-list test of `omitempty` on slices and maps. -/
def optListField (key : String) (xs : List α) (f : List α → Json) :
    List (String × Json) :=
  optField key (if xs.isEmpty then none else some (f xs))

def optStrField (key : String) (s : String) : List (String × Json) :=
  optField key (if s = "" then none else some (.str s))

def siteLinkFields (sl : SiteLink) : List (String × Json) :=
  [("site", .str sl.site), ("title", .str sl.title)] ++
    optListField "badges" sl.badges marshalStringList ++
    optStrField "url" sl.url

def marshalSiteLink (sl : SiteLink) : Json := .obj (siteLinkFields sl)

def unmarshalSiteLink (j : Json) : Except String SiteLink :=
  match j with
  | .obj fields => do
      let s ← decodeStringField fields "site"
      let t ← decodeStringField fields "title"
      let b ← decodeFieldWith fields "badges" (decodeArr decodeJsonString) []
      let u ← decodeStringField fields "url"
      .ok ⟨s, t, b, u⟩
  | _ => .error "json: cannot unmarshal as object"

def snakFields (s : Snak) : List (String × Json) :=
  optStrField "hash" s.hash ++
    [("snaktype", marshalSnakType s.snaktype), ("property", .str s.property),
     ("datatype", marshalDataType s.datatype)] ++
    optField "datavalue" (s.datavalue.map marshalDataValue)

def marshalSnak (s : Snak) : Json := .obj (snakFields s)

def zeroSnak : Snak := ⟨"", .Value, "", .WikiBaseItem, none⟩

def unmarshalSnak (j : Json) : Except String Snak :=
  match j with
  | .obj fields => do
      let h ← decodeStringField fields "hash"
      let st ← decodeFieldWith fields "snaktype" unmarshalSnakType .Value
      let pr ← decodeStringField fields "property"
      let dt ← decodeFieldWith fields "datatype" unmarshalDataType .WikiBaseItem
      let dv ← decodeOptFieldWith fields "datavalue" unmarshalDataValue
      .ok ⟨h, st, pr, dt, dv⟩
  | _ => .error "json: cannot unmarshal as object"

def marshalSnakMap (m : List (String × List Snak)) : Json :=
  .obj (m.map (fun kv => (kv.1, .arr (kv.2.map marshalSnak))))

def referenceFields (r : Reference) : List (String × Json) :=
  optStrField "hash" r.hash ++
    optListField "snaks" r.snaks marshalSnakMap ++
    optListField "snaks-order" r.snaksOrder marshalStringList

def marshalReference (r : Reference) : Json := .obj (referenceFields r)

def unmarshalReference (j : Json) : Except String Reference :=
  match j with
  | .obj fields => do
      let h ← decodeStringField fields "hash"
      let sn ← decodeFieldWith fields "snaks" (decodeObjMap (decodeArr unmarshalSnak)) []
      let so ← decodeFieldWith fields "snaks-order" (decodeArr decodeJsonString) []
      .ok ⟨h, sn, so⟩
  | _ => .error "json: cannot unmarshal as object"

def statementFields (st : Statement) : List (String × Json) :=
  [("id", .str st.id), ("type", marshalStatementType st.type),
   ("mainsnak", marshalSnak st.mainsnak),
   ("rank", marshalStatementRank st.rank)] ++
    optListField "qualifiers" st.qualifiers marshalSnakMap ++
    optListField "qualifiers-order" st.qualifiersOrder marshalStringList ++
    optListField "references" st.references (fun rs => .arr (rs.map marshalReference))

def marshalStatement (st : Statement) : Json := .obj (statementFields st)

def unmarshalStatement (j : Json) : Except String Statement :=
  match j with
  | .obj fields => do
      let i ← decodeStringField fields "id"
      let ty ← decodeFieldWith fields "type" unmarshalStatementType .StatementT
      let ms ← decodeFieldWith fields "mainsnak" unmarshalSnak zeroSnak
      let r ← decodeFieldWith fields "rank" unmarshalStatementRank .Preferred
      let q ← decodeFieldWith fields "qualifiers" (decodeObjMap (decodeArr unmarshalSnak)) []
      let qo ← decodeFieldWith fields "qualifiers-order" (decodeArr decodeJsonString) []
      let rf ← decodeFieldWith fields "references" (decodeArr unmarshalReference) []
      .ok ⟨i, ty, ms, r, q, qo, rf⟩
  | _ => .error "json: cannot unmarshal as object"

def entityFields (e : Entity) : List (String × Json) :=
  [("id", .str e.id), ("type", marshalEntityType e.type)] ++
    optField "datatype" (e.datatype.map marshalDataType) ++
    optListField "labels" e.labels
      (fun m => .obj (m.map (fun kv => (kv.1, marshalLanguageValue kv.2)))) ++
    optListField "descriptions" e.descriptions
      (fun m => .obj (m.map (fun kv => (kv.1, marshalLanguageValue kv.2)))) ++
    optListField "aliases" e.aliases
      (fun m => .obj (m.map (fun kv => (kv.1, .arr (kv.2.map marshalLanguageValue))))) ++
    optListField "claims" e.claims
      (fun m => .obj (m.map (fun kv => (kv.1, .arr (kv.2.map marshalStatement))))) ++
    optListField "sitelinks" e.sitelinks
      (fun m => .obj (m.map (fun kv => (kv.1, marshalSiteLink kv.2)))) ++
    [("lastrevid", .num (e.lastrevid : ℚ))]

def marshalEntity (e : Entity) : Json := .obj (entityFields e)

def unmarshalEntity (j : Json) : Except String Entity :=
  match j with
  | .obj fields => do
      let i ← decodeStringField fields "id"
      let ty ← decodeFieldWith fields "type" unmarshalEntityType .Item
      let dt ← decodeOptFieldWith fields "datatype" unmarshalDataType
      let la ← decodeFieldWith fields "labels" (decodeObjMap unmarshalLanguageValue) []
      let de ← decodeFieldWith fields "descriptions" (decodeObjMap unmarshalLanguageValue) []
      let al ← decodeFieldWith fields "aliases"
        (decodeObjMap (decodeArr unmarshalLanguageValue)) []
      let cl ← decodeFieldWith fields "claims"
        (decodeObjMap (decodeArr unmarshalStatement)) []
      let sl ← decodeFieldWith fields "sitelinks" (decodeObjMap unmarshalSiteLink) []
      let lr ← decodeIntField fields "lastrevid"
      .ok ⟨i, ty, dt, la, de, al, cl, sl, lr⟩
  | _ => .error "json: cannot unmarshal as object"

/-! ## Validity: the round-trippable values

`decimalRatB` is the terminating-decimal test on amounts; time values must
be precision-normalized and in range (`timeRoundTrips`); error values must
be non-empty (the decoder treats an empty `error` as absent); mapping keys
are unique, as the claim's validity notion requires. -/

def decimalRatB (a : ℚ) : Bool :=
  (stripCount 5 (stripCount 2 a.den a.den).2 (stripCount 2 a.den a.den).2).2 == 1

def nodupKeysB (m : List (String × α)) : Bool := decide (m.map Prod.fst).Nodup

def validDataValueB : DataValue → Bool
  | .err e => !(e == "")
  | .str _ => true
  | .entityID _ => true
  | .globeCoordinate _ => true
  | .monolingualText _ => true
  | .quantity v => decimalRatB v.amount && v.upperBound.all decimalRatB &&
      v.lowerBound.all decimalRatB
  | .time v => decide (timeRoundTrips v.time v.precision)

def validSnakB (s : Snak) : Bool := s.datavalue.all validDataValueB

def validReferenceB (r : Reference) : Bool :=
  nodupKeysB r.snaks && r.snaks.all (fun kv => kv.2.all validSnakB)

def validStatementB (st : Statement) : Bool :=
  validSnakB st.mainsnak && nodupKeysB st.qualifiers &&
  st.qualifiers.all (fun kv => kv.2.all validSnakB) &&
  st.references.all validReferenceB

def validEntityB (e : Entity) : Bool :=
  nodupKeysB e.labels && nodupKeysB e.descriptions && nodupKeysB e.aliases &&
  nodupKeysB e.claims && nodupKeysB e.sitelinks &&
  e.claims.all (fun kv => kv.2.all validStatementB)

/-- The time snak of the C1 counterexample: the stored month is May (5)
although the precision is `Year`, so encoding zeroes the month and
decoding restores 1, not 5. -/
def cexTimeSnak : Snak :=
  ⟨"", .Value, "P1", .Time, some (.time ⟨⟨1950, 5, 1, 0, 0, 0⟩, Year, .Gregorian⟩)⟩

def cexTimeStatement : Statement :=
  ⟨"S1", .StatementT, cexTimeSnak, .Normal, [], [], []⟩

/-- The C1 counterexample entity. -/
def cexTimeEntity : Entity :=
  ⟨"Q1", .Item, none, [], [], [], [("P1", [cexTimeStatement])], [], 0⟩

def witnessQuantitySnak : Snak :=
  ⟨"", .Value, "P2", .Quantity, some (.quantity ⟨mkRat 5 2, some 3, none, "1"⟩)⟩

def witnessTimeSnak : Snak :=
  ⟨"", .Value, "P3", .Time, some (.time ⟨⟨1950, 1, 1, 0, 0, 0⟩, Year, .Julian⟩)⟩

def witnessReference : Reference :=
  ⟨"r1", [("P3", [witnessTimeSnak])], ["P3"]⟩

def witnessStatement : Statement :=
  ⟨"S1", .StatementT, ⟨"h1", .Value, "P1", .String, some (.str "hello")⟩, .Normal,
   [("P2", [witnessQuantitySnak])], ["P2"], [witnessReference]⟩

/-- The C1 witness entity: a small but representative valid entity using
a string value, a quantity, and a normalized time value. -/
def witnessEntity : Entity :=
  ⟨"Q2", .Item, none, [("en", ⟨"en", "example"⟩)], [], [("en", [⟨"en", "ex"⟩])],
   [("P1", [witnessStatement])], [("enwiki", ⟨"enwiki", "Example", ["Q17437796"], ""⟩)],
   123⟩

/-- The decode of the C1 counterexample's encoding: identical to
`cexTimeEntity` except that the stored month is back to 1. -/
def cexDecodedEntity : Entity :=
  ⟨"Q1", .Item, none, [], [], [],
   [("P1", [⟨"S1", .StatementT,
     ⟨"", .Value, "P1", .Time,
      some (.time ⟨⟨1950, 1, 1, 0, 0, 0⟩, Year, .Gregorian⟩)⟩,
     .Normal, [], [], []⟩])],
   [], 0⟩

/-! ## THEOREMS -/

/-! ### Digit-string helper lemmas -/

theorem ofDigitsRev_natDigitsRev (fuel : Nat) :
    ∀ n, n ≤ fuel → ofDigitsRev (natDigitsRev fuel n) = n := by
  induction fuel with
  | zero =>
    intro n hn
    interval_cases n
    simp [natDigitsRev, ofDigitsRev]
  | succ fuel ih =>
    intro n hn
    match n with
    | 0 => simp [natDigitsRev, ofDigitsRev]
    | m + 1 =>
      have hdiv : (m + 1) / 10 ≤ fuel := by
        have h1 : (m + 1) / 10 < m + 1 := Nat.div_lt_self (Nat.succ_pos m) (by omega)
        omega
      simp only [natDigitsRev, ofDigitsRev, ih _ hdiv]
      omega

theorem natDigitsRev_lt (fuel : Nat) :
    ∀ n d, d ∈ natDigitsRev fuel n → d < 10 := by
  induction fuel with
  | zero =>
    intro n d hd
    match n with
    | 0 => simp [natDigitsRev] at hd
    | _ + 1 => simp [natDigitsRev] at hd
  | succ fuel ih =>
    intro n d hd
    match n with
    | 0 => simp [natDigitsRev] at hd
    | m + 1 =>
      simp only [natDigitsRev, List.mem_cons] at hd
      rcases hd with h | h
      · omega
      · exact ih _ _ h

/-! ### Framing helper (claim C10) -/

theorem parseLineNumber_addLineNumber (n : Int) (data : List Nat) :
    ParseLineNumber (AddLineNumber n data) = .ok ((n % 2 ^ 32 : Int), data) := by
  have hnn : (0 : Int) ≤ n % 2 ^ 32 := Int.emod_nonneg n (by norm_num)
  have hlt : n % 2 ^ 32 < 2 ^ 32 := Int.emod_lt_of_pos n (by norm_num)
  have hub : (n % (2 ^ 32 : Int)).toNat < 2 ^ 32 := by omega
  simp only [AddLineNumber, List.cons_append, List.nil_append, ParseLineNumber]
  have hrec : ∀ u : Nat, u < 2 ^ 32 →
      (u % 256 + 256 * (u / 256 % 256) + 256 ^ 2 * (u / 256 ^ 2 % 256)
        + 256 ^ 3 * (u / 256 ^ 3 % 256) : Nat) = u := by
    intro u hu
    omega
  rw [hrec _ hub, Int.toNat_of_nonneg hnn]

theorem parseLineNumber_short (data : List Nat) (h : data.length < 4) :
    ParseLineNumber data = .error "data too short to contain line number" := by
  match data with
  | [] => rfl
  | [_] => rfl
  | [_, _] => rfl
  | [_, _, _] => rfl
  | _ :: _ :: _ :: _ :: _ => exact absurd h (by simp)

/-- C10.  The claim as frozen says the round trip recovers `n` exactly when
`0 ≤ n < 2^31` and that any `n` outside that range comes back different.
The second half is false: `AddLineNumber` truncates to 32 bits and
`ParseLineNumber` reads the prefix as an unsigned 32-bit integer, so every
`n` in `[0, 2^32)` round-trips.  This counterexample exhibits `n = 2^31`,
which is outside `[0, 2^31)` yet is recovered unchanged. -/
theorem c10_counterexample :
    ParseLineNumber (AddLineNumber 2147483648 [7, 9]) = .ok (2147483648, [7, 9]) := by
  rfl

/-- C10 (amended).  `ParseLineNumber` fails exactly on inputs of fewer than
4 bytes; for every payload and every `n` with `0 ≤ n < 2^32` the round trip
through `AddLineNumber` recovers `n` and the payload unchanged; and for `n`
outside `[0, 2^32)` the recovered number differs from `n`, because
`AddLineNumber` truncates the prefix to 32 bits. -/
theorem c10_frame_roundtrip :
    (∀ data : List Nat, (ParseLineNumber data matches .error _) ↔ data.length < 4) ∧
    (∀ (n : Int) (data : List Nat), 0 ≤ n → n < 2 ^ 32 →
      ParseLineNumber (AddLineNumber n data) = .ok (n, data)) ∧
    (∀ (n : Int) (data : List Nat) (m : Int) (rest : List Nat),
      (n < 0 ∨ 2 ^ 32 ≤ n) →
      ParseLineNumber (AddLineNumber n data) = .ok (m, rest) → m ≠ n) := by
  refine ⟨?_, ?_, ?_⟩
  · intro data
    constructor
    · intro herr
      rcases data with _ | ⟨b0, _ | ⟨b1, _ | ⟨b2, _ | ⟨b3, rest⟩⟩⟩⟩
      · simp
      · simp
      · simp
      · simp
      · simp [ParseLineNumber] at herr
    · intro hlen
      rw [parseLineNumber_short data hlen]
  · intro n data h0 hlt
    rw [parseLineNumber_addLineNumber, Int.emod_eq_of_lt h0 hlt]
  · intro n data m rest hout hparse
    rw [parseLineNumber_addLineNumber, Except.ok.injEq, Prod.mk.injEq] at hparse
    obtain ⟨h1, -⟩ := hparse
    have hnn : (0 : Int) ≤ n % 2 ^ 32 := Int.emod_nonneg n (by norm_num)
    have hlt : n % 2 ^ 32 < 2 ^ 32 := Int.emod_lt_of_pos n (by norm_num)
    rcases hout with h | h <;> omega

/-- C10 witness: the amended claim at `n = 5`, payload `[9, 200]`, and at a
2-byte input for the error half. -/
theorem c10_frame_roundtrip_witness :
    ParseLineNumber (AddLineNumber 5 [9, 200]) = .ok (5, [9, 200]) ∧
    ((ParseLineNumber [1, 2] matches .error _) ↔ [1, 2].length < 4) :=
  ⟨c10_frame_roundtrip.2.1 5 [9, 200] (by decide) (by decide),
   c10_frame_roundtrip.1 [1, 2]⟩

/-! ### Checkpoint manager (claims C8, C9) -/

/-- C8.  Every call to `UpdateProgressAndMaybeSave` increments the
total-items counter and the since-last-flush counter and marks the state
dirty, flushing synchronously exactly when the incremented since-last-flush
counter reaches the threshold (on a flush, the counter is reset and the
dirty flag cleared, and the file receives the updated snapshot); and in the
concrete threshold-2 scenario the file does not exist after
`UpdateProgressAndMaybeSave(1, "item1")` and holds
`total_items = 2, last_item_id = "item2", position = 2` after
`UpdateProgressAndMaybeSave(2, "item2")`. -/
theorem c8_updateProgress_spec :
    (∀ (now : Int) (st : CheckpointManagerState) (position : Int) (itemID : String),
      let st' := UpdateProgressAndMaybeSave now st position itemID
      st'.currentCheckpoint.TotalItems = st.currentCheckpoint.TotalItems + 1 ∧
      st'.currentCheckpoint.LastItemID = itemID ∧
      st'.currentCheckpoint.ProcessedPosition = position ∧
      (if st.itemsSinceLastCheckpoint + 1 ≥ st.config.ItemsThreshold then
        st'.itemsSinceLastCheckpoint = 0 ∧ st'.dirty = false ∧
        st'.file = some ⟨st.currentCheckpoint.TotalItems + 1, now, itemID, position⟩
      else
        st'.itemsSinceLastCheckpoint = st.itemsSinceLastCheckpoint + 1 ∧
        st'.dirty = true ∧ st'.file = st.file)) ∧
    (UpdateProgressAndMaybeSave 100 cmFresh2 1 "item1").file = none ∧
    (UpdateProgressAndMaybeSave 200
        (UpdateProgressAndMaybeSave 100 cmFresh2 1 "item1") 2 "item2").file =
      some ⟨2, 200, "item2", 2⟩ := by
  refine ⟨?_, by decide, by decide⟩
  intro now st position itemID
  by_cases h : st.itemsSinceLastCheckpoint + 1 ≥ st.config.ItemsThreshold
  · simp [UpdateProgressAndMaybeSave, checkpointSave, h]
  · simp [UpdateProgressAndMaybeSave, checkpointSave, h]

/-- C9.  Constructing a manager against a missing checkpoint file succeeds
and yields the empty snapshot: total-items 0 (along with empty item id,
zero position, clean state, and still no file). -/
theorem c9_newManager_missingFile (config : CheckpointConfig) :
    NewCheckpointManagerWithConfig config .missing =
      .ok { config := config, currentCheckpoint := ⟨0, 0, "", 0⟩,
            itemsSinceLastCheckpoint := 0, dirty := false, file := none } := rfl

/-! ### More digit-string lemmas -/

theorem digitChar_isDigit (d : Nat) (hd : d < 10) : (digitChar d).isDigit = true := by
  interval_cases d <;> decide

theorem digitChar_toNat (d : Nat) (hd : d < 10) : (digitChar d).toNat = 48 + d := by
  interval_cases d <;> decide

theorem digitsVal_append_singleton (l : List Nat) (d : Nat) :
    digitsVal (l ++ [d]) = 10 * digitsVal l + d := by
  simp [digitsVal, List.foldl_append]

theorem digitsVal_reverse (ds : List Nat) : digitsVal ds.reverse = ofDigitsRev ds := by
  induction ds with
  | nil => rfl
  | cons d ds ih =>
    rw [List.reverse_cons, digitsVal_append_singleton, ih]
    simp [ofDigitsRev]
    omega

theorem digitsVal_natDigits (n : Nat) : digitsVal (natDigits n) = n := by
  rw [natDigits, digitsVal_reverse, ofDigitsRev_natDigitsRev n n le_rfl]

theorem natDigits_lt (n : Nat) : ∀ d ∈ natDigits n, d < 10 := by
  intro d hd
  exact natDigitsRev_lt n n d (List.mem_reverse.mp hd)

theorem natToDecimalChars_all_digit (n : Nat) :
    ∀ c ∈ natToDecimalChars n, c.isDigit = true := by
  intro c hc
  by_cases h : n = 0
  · subst h; simp [natToDecimalChars] at hc; subst hc; decide
  · simp only [natToDecimalChars, if_neg h, List.mem_map] at hc
    obtain ⟨d, hd, rfl⟩ := hc
    exact digitChar_isDigit d (natDigits_lt n d hd)

theorem digitCharsVal_natToDecimalChars (n : Nat) :
    digitCharsVal (natToDecimalChars n) = n := by
  by_cases h : n = 0
  · subst h; rfl
  · simp only [natToDecimalChars, if_neg h, digitCharsVal, List.map_map]
    have hmap : (natDigits n).map ((fun c => c.toNat - 48) ∘ digitChar) =
        (natDigits n).map id := by
      apply List.map_congr_left
      intro d hd
      have hd10 : d < 10 := natDigits_lt n d hd
      simp [Function.comp, digitChar_toNat d hd10]
    rw [hmap, List.map_id, digitsVal_natDigits]

theorem ofDigitsRev_lt (ds : List Nat) (h : ∀ d ∈ ds, d < 10) :
    ofDigitsRev ds < 10 ^ ds.length := by
  induction ds with
  | nil => simp [ofDigitsRev]
  | cons d ds ih =>
    have hd := h d (by simp)
    have hih := ih (fun x hx => h x (by simp [hx]))
    simp only [ofDigitsRev, List.length_cons, pow_succ]
    omega

theorem natDigitsRev_length_le (fuel : Nat) :
    ∀ n k, n < 10 ^ k → (natDigitsRev fuel n).length ≤ k := by
  induction fuel with
  | zero =>
    intro n k _
    cases n <;> simp [natDigitsRev]
  | succ fuel ih =>
    intro n k h
    match n with
    | 0 => simp [natDigitsRev]
    | m + 1 =>
      have hk : k ≠ 0 := by
        rintro rfl
        rw [pow_zero] at h
        omega
      obtain ⟨k', rfl⟩ := Nat.exists_eq_succ_of_ne_zero hk
      have hlt : (m + 1) / 10 < 10 ^ k' := by
        rw [Nat.div_lt_iff_lt_mul (by norm_num)]
        calc m + 1 < 10 ^ (k' + 1) := h
          _ = 10 ^ k' * 10 := by ring
      simp only [natDigitsRev, List.length_cons]
      exact Nat.succ_le_succ (ih _ _ hlt)

theorem natToDecimalChars_length_le (n k : Nat) (hn : n < 10 ^ k) (hk : 1 ≤ k) :
    (natToDecimalChars n).length ≤ k := by
  by_cases h : n = 0
  · subst h; simpa [natToDecimalChars] using hk
  · simp only [natToDecimalChars, if_neg h, List.length_map, natDigits,
      List.length_reverse]
    exact natDigitsRev_length_le n n k hn

theorem natToDecimalChars_length_ge (n k : Nat) (hn : 10 ^ k ≤ n) :
    k + 1 ≤ (natToDecimalChars n).length := by
  have hn0 : n ≠ 0 := by
    intro h
    subst h
    have hp : 0 < 10 ^ k := pow_pos (by norm_num) k
    omega
  simp only [natToDecimalChars, if_neg hn0, List.length_map, natDigits,
    List.length_reverse]
  by_contra hcon
  push_neg at hcon
  have hlen : (natDigitsRev n n).length ≤ k := by omega
  have hval : ofDigitsRev (natDigitsRev n n) < 10 ^ (natDigitsRev n n).length :=
    ofDigitsRev_lt _ (natDigitsRev_lt n n)
  rw [ofDigitsRev_natDigitsRev n n le_rfl] at hval
  have : (10 : Nat) ^ (natDigitsRev n n).length ≤ 10 ^ k :=
    Nat.pow_le_pow_right (by norm_num) hlen
  omega

/-! ### Year-digit lemmas -/

theorem yearAbsChars_all_digit (a : Nat) : ∀ c ∈ yearAbsChars a, c.isDigit = true := by
  intro c hc
  by_cases h : a < 10000
  · simp only [yearAbsChars, if_pos h, List.mem_cons, List.not_mem_nil, or_false] at hc
    rcases hc with rfl | rfl | rfl | rfl
    · exact digitChar_isDigit _ (by omega)
    · exact digitChar_isDigit _ (by omega)
    · exact digitChar_isDigit _ (by omega)
    · exact digitChar_isDigit _ (by omega)
  · simp only [yearAbsChars, if_neg h] at hc
    exact natToDecimalChars_all_digit a c hc

theorem yearAbsChars_length_ge (a : Nat) : 4 ≤ (yearAbsChars a).length := by
  by_cases h : a < 10000
  · simp [yearAbsChars, if_pos h]
  · simp only [yearAbsChars, if_neg h]
    have : 10 ^ 4 ≤ a := by omega
    have := natToDecimalChars_length_ge a 4 this
    omega

theorem digitCharsVal_yearAbsChars (a : Nat) : digitCharsVal (yearAbsChars a) = a := by
  by_cases h : a < 10000
  · have h3 : a / 1000 < 10 := by omega
    have h2 : a / 100 % 10 < 10 := by omega
    have h1 : a / 10 % 10 < 10 := by omega
    have h0 : a % 10 < 10 := by omega
    simp only [yearAbsChars, if_pos h, digitCharsVal, List.map_cons, List.map_nil,
      digitsVal, List.foldl, digitChar_toNat _ h3, digitChar_toNat _ h2,
      digitChar_toNat _ h1, digitChar_toNat _ h0]
    omega
  · simp only [yearAbsChars, if_neg h]
    exact digitCharsVal_natToDecimalChars a

/-! ### Splitting the formatted time string -/

theorem digits_run_split (p : Char → Bool) (yd tail : List Char) (c : Char)
    (hyd : ∀ x ∈ yd, p x = true) (hc : p c = false) :
    (yd ++ c :: tail).takeWhile p = yd ∧
    (yd ++ c :: tail).dropWhile p = c :: tail := by
  induction yd with
  | nil => simp [List.takeWhile_cons, List.dropWhile_cons, hc]
  | cons x l ih =>
    have hx := hyd x (by simp)
    have hrec := ih (fun y hy => hyd y (by simp [hy]))
    simp [List.takeWhile_cons, List.dropWhile_cons, hx, hrec.1, hrec.2]

theorem expectChar_self (c : Char) (l : List Char) : expectChar c (c :: l) = some l := by
  simp [expectChar]

theorem parseTwoDigits_pad2 (n : Nat) (hn : n < 100) (rest : List Char) :
    parseTwoDigits (pad2Chars n ++ rest) = some (n, rest) := by
  have h1 : n / 10 < 10 := by omega
  have h2 : n % 10 < 10 := by omega
  simp only [pad2Chars, if_pos hn, List.cons_append, List.nil_append, parseTwoDigits,
    digitChar_isDigit _ h1, digitChar_isDigit _ h2, Bool.and_self, if_true,
    digitChar_toNat _ h1, digitChar_toNat _ h2]
  congr 2
  omega

theorem splitSign_plus (r : List Char) : splitSign ('+' :: r) = some (false, r) := by
  simp [splitSign]

theorem splitSign_minus (r : List Char) : splitSign ('-' :: r) = some (true, r) := by
  simp [splitSign]

set_option maxHeartbeats 1000000 in
theorem splitTimeText_shape (neg : Bool) (yd : List Char) (mo da ho mi se : Nat)
    (hyd : ∀ c ∈ yd, c.isDigit = true) (hlen : 4 ≤ yd.length)
    (hmo : mo < 100) (hda : da < 100) (hho : ho < 100) (hmi : mi < 100) (hse : se < 100) :
    splitTimeText ((if neg then '-' else '+') ::
      (yd ++ '-' :: (pad2Chars mo ++ '-' :: (pad2Chars da ++ 'T' :: (pad2Chars ho ++
        ':' :: (pad2Chars mi ++ ':' :: (pad2Chars se ++ ['Z']))))))) =
      some ⟨neg, yd, mo, da, ho, mi, se⟩ := by
  have hrun := digits_run_split Char.isDigit yd
      (pad2Chars mo ++ '-' :: (pad2Chars da ++ 'T' :: (pad2Chars ho ++
        ':' :: (pad2Chars mi ++ ':' :: (pad2Chars se ++ ['Z']))))) '-' hyd (by decide)
  have hif : ¬ (yd.length < 4) := by omega
  cases neg
  case false =>
    rw [if_neg Bool.false_ne_true, splitTimeText, splitSign_plus]
    simp only [Option.bind_eq_bind, Option.some_bind, hrun.1, hrun.2, if_neg hif,
      expectChar_self, parseTwoDigits_pad2 mo hmo, parseTwoDigits_pad2 da hda,
      parseTwoDigits_pad2 ho hho, parseTwoDigits_pad2 mi hmi, parseTwoDigits_pad2 se hse]
  case true =>
    rw [if_pos rfl, splitTimeText, splitSign_minus]
    simp only [Option.bind_eq_bind, Option.some_bind, hrun.1, hrun.2, if_neg hif,
      expectChar_self, parseTwoDigits_pad2 mo hmo, parseTwoDigits_pad2 da hda,
      parseTwoDigits_pad2 ho hho, parseTwoDigits_pad2 mi hmi, parseTwoDigits_pad2 se hse]
theorem formatTime_data (t : GoTime) (p : TimePrecision) :
    (formatTime t p).data =
      formatYearChars (if t.year < 1 then t.year - 1 else t.year) ++
        '-' :: (pad2Chars (if p < Month then 0 else t.month) ++
          '-' :: (pad2Chars (if p < Day then 0 else t.day) ++
            'T' :: (pad2Chars t.hour ++
              ':' :: (pad2Chars t.minute ++
                ':' :: (pad2Chars t.second ++ ['Z']))))) := rfl

theorem yearSignedVal_mk (neg : Bool) (yd : List Char) (mo da ho mi se : Nat) :
    yearSignedVal ⟨neg, yd, mo, da, ho, mi, se⟩ =
      if neg then -(digitCharsVal yd : Int) else (digitCharsVal yd : Int) := rfl

set_option maxHeartbeats 1000000 in
theorem parseTime_formatTime (t : GoTime) (p : TimePrecision) (h : timeRoundTrips t p) :
    parseTime (formatTime t p) = .ok t := by
  obtain ⟨hy1, hy2, hm1, hm2, hd1, hd2, hh, hmi, hs, hpm, hpd⟩ := h
  obtain ⟨ty, tmo, tda, tho, tmi2, tse⟩ := t
  simp only at hy1 hy2 hm1 hm2 hd1 hd2 hh hmi hs hpm hpd
  simp only [int64MinVal, int64MaxVal] at hy1 hy2
  have hmo100 : (if p < Month then 0 else tmo) < 100 := by split <;> omega
  have hda100 : (if p < Day then 0 else tda) < 100 := by split <;> omega
  have hmonth : (if (if p < Month then (0 : Nat) else tmo) = 0 then 1
      else (if p < Month then (0 : Nat) else tmo)) = tmo := by
    by_cases hp : p < Month
    · simp [hp, hpm hp]
    · simp only [if_neg hp]
      rw [if_neg (by omega)]
  have hday : (if (if p < Day then (0 : Nat) else tda) = 0 then 1
      else (if p < Day then (0 : Nat) else tda)) = tda := by
    by_cases hp : p < Day
    · simp [hp, hpd hp]
    · simp only [if_neg hp]
      rw [if_neg (by omega)]
  rcases lt_or_le ty 1 with hlt | hge
  · -- year below 1: emitted year is ty - 1, negative
    have hneg : ty - 1 < 0 := by omega
    have hshape := splitTimeText_shape true (yearAbsChars (ty - 1).natAbs)
        (if p < Month then 0 else tmo) (if p < Day then 0 else tda) tho tmi2 tse
        (yearAbsChars_all_digit _) (yearAbsChars_length_ge _)
        hmo100 hda100 (by omega) (by omega) (by omega)
    simp only [eq_self_iff_true, if_true] at hshape
    have hdata : (formatTime ⟨ty, tmo, tda, tho, tmi2, tse⟩ p).data =
        '-' :: (yearAbsChars (ty - 1).natAbs ++
          '-' :: (pad2Chars (if p < Month then 0 else tmo) ++
            '-' :: (pad2Chars (if p < Day then 0 else tda) ++
              'T' :: (pad2Chars tho ++
                ':' :: (pad2Chars tmi2 ++
                  ':' :: (pad2Chars tse ++ ['Z'])))))) := by
      rw [formatTime_data]
      simp only [formatYearChars, if_pos hlt, if_pos hneg]
      rfl
    rw [parseTime, hdata, hshape]
    dsimp only
    have hyval : yearSignedVal ⟨true, yearAbsChars (ty - 1).natAbs,
        (if p < Month then 0 else tmo), (if p < Day then 0 else tda), tho, tmi2, tse⟩ =
        ty - 1 := by
      rw [yearSignedVal_mk, digitCharsVal_yearAbsChars]
      show -(((ty - 1).natAbs : Int)) = ty - 1
      omega
    rw [hyval]
    rw [if_neg (by simp only [int64MinVal, int64MaxVal]; omega)]
    rw [if_pos (by omega : ty - 1 < 0)]
    have hyy : ty - 1 + 1 = ty := by omega
    simp only [mkGoTime]
    rw [hyy, hmonth, hday]
  · -- year at least 1: emitted year is ty itself, non-negative
    have hpos : ¬ (ty < 0) := by omega
    have hshape := splitTimeText_shape false (yearAbsChars ty.natAbs)
        (if p < Month then 0 else tmo) (if p < Day then 0 else tda) tho tmi2 tse
        (yearAbsChars_all_digit _) (yearAbsChars_length_ge _)
        hmo100 hda100 (by omega) (by omega) (by omega)
    simp only [if_neg Bool.false_ne_true] at hshape
    have hdata : (formatTime ⟨ty, tmo, tda, tho, tmi2, tse⟩ p).data =
        '+' :: (yearAbsChars ty.natAbs ++
          '-' :: (pad2Chars (if p < Month then 0 else tmo) ++
            '-' :: (pad2Chars (if p < Day then 0 else tda) ++
              'T' :: (pad2Chars tho ++
                ':' :: (pad2Chars tmi2 ++
                  ':' :: (pad2Chars tse ++ ['Z'])))))) := by
      rw [formatTime_data]
      simp only [formatYearChars, if_neg (by omega : ¬ (ty < 1)), if_neg hpos]
      rfl
    rw [parseTime, hdata, hshape]
    dsimp only
    have hyval : yearSignedVal ⟨false, yearAbsChars ty.natAbs,
        (if p < Month then 0 else tmo), (if p < Day then 0 else tda), tho, tmi2, tse⟩ =
        ty := by
      rw [yearSignedVal_mk, digitCharsVal_yearAbsChars]
      show ((ty.natAbs : Int)) = ty
      omega
    rw [hyval]
    rw [if_neg (by simp only [int64MinVal, int64MaxVal]; omega)]
    rw [if_neg (by omega : ¬ (ty < 0))]
    rw [if_neg (by omega : ¬ (ty = 0))]
    simp only [mkGoTime]
    rw [hmonth, hday]

/-! ### Negative years and year zero (claims C4, C5) -/

/-- C4.  Decode stores a parsed negative year incremented by one toward
zero (historical → astronomical), encode decrements a stored year below 1
by one, and concretely historical year −44 decodes to internal year −43
and re-encodes as `-0044`: the text `-0044-03-15T12:30:45Z` round-trips
end to end. -/
theorem c4_negative_year_numbering :
    (∀ (s : String) (parts : TimeParts) (t : GoTime),
      splitTimeText s.data = some parts → yearSignedVal parts < 0 →
      parseTime s = .ok t → t.year = yearSignedVal parts + 1) ∧
    (∀ (t : GoTime) (p : TimePrecision), t.year < 1 →
      ∃ tail : List Char, (formatTime t p).data = formatYearChars (t.year - 1) ++ tail) ∧
    parseTime "-0044-03-15T12:30:45Z" = .ok ⟨-43, 3, 15, 12, 30, 45⟩ ∧
    formatTime ⟨-43, 3, 15, 12, 30, 45⟩ Day = "-0044-03-15T12:30:45Z" := by
  refine ⟨?_, ?_, by rfl, by rfl⟩
  · intro s parts t hsplit hneg hparse
    rw [parseTime, hsplit] at hparse
    dsimp only at hparse
    by_cases hr : yearSignedVal parts < int64MinVal ∨ int64MaxVal < yearSignedVal parts
    · rw [if_pos hr] at hparse
      exact absurd hparse (by simp)
    · rw [if_neg hr, if_pos hneg] at hparse
      rw [Except.ok.injEq] at hparse
      rw [← hparse]
      rfl
  · intro t p hlt
    exact ⟨'-' :: (pad2Chars (if p < Month then 0 else t.month) ++
      '-' :: (pad2Chars (if p < Day then 0 else t.day) ++
        'T' :: (pad2Chars t.hour ++
          ':' :: (pad2Chars t.minute ++
            ':' :: (pad2Chars t.second ++ ['Z']))))),
      by rw [formatTime_data, if_pos hlt]⟩

/-- C4 witness: the general conjuncts of `c4_negative_year_numbering`
applied at the concrete text `-0044-03-15T12:30:45Z` (whose year field is
the negative −44) and at the decoded time value. -/
theorem c4_negative_year_numbering_witness :
    GoTime.year ⟨-43, 3, 15, 12, 30, 45⟩ =
      yearSignedVal ⟨true, ['0', '0', '4', '4'], 3, 15, 12, 30, 45⟩ + 1 ∧
    ∃ tail : List Char,
      (formatTime ⟨-43, 3, 15, 12, 30, 45⟩ Day).data =
        formatYearChars (-43 - 1) ++ tail :=
  ⟨c4_negative_year_numbering.1 "-0044-03-15T12:30:45Z"
      ⟨true, ['0', '0', '4', '4'], 3, 15, 12, 30, 45⟩ ⟨-43, 3, 15, 12, 30, 45⟩
      rfl (by decide) c4_negative_year_numbering.2.2.1,
   c4_negative_year_numbering.2.1 ⟨-43, 3, 15, 12, 30, 45⟩ Day (by decide)⟩

/-- C5.  Any timestamp text whose signed year field parses to 0 is
rejected with exactly the error `year cannot be 0`; no time value is
produced. -/
theorem c5_year_zero_rejected :
    ∀ (s : String) (parts : TimeParts),
      splitTimeText s.data = some parts → yearSignedVal parts = 0 →
      parseTime s = .error "year cannot be 0" := by
  intro s parts hsplit h0
  rw [parseTime, hsplit]
  dsimp only
  rw [h0]
  rw [if_neg (by norm_num [int64MinVal, int64MaxVal])]
  rw [if_neg (by norm_num), if_pos rfl]

/-- C5 witness: the claim's own example `+0000-01-01T00:00:00Z`. -/
theorem c5_year_zero_rejected_witness :
    parseTime "+0000-01-01T00:00:00Z" = .error "year cannot be 0" :=
  c5_year_zero_rejected "+0000-01-01T00:00:00Z"
    ⟨false, ['0', '0', '0', '0'], 1, 1, 0, 0, 0⟩ rfl rfl

/-! ### Amount codec lemmas and claim C2 -/
theorem digits_run_all (p : Char → Bool) (l : List Char) (h : ∀ x ∈ l, p x = true) :
    l.takeWhile p = l ∧ l.dropWhile p = [] := by
  induction l with
  | nil => simp
  | cons c l ih =>
    have hc := h c (by simp)
    have hrec := ih (fun x hx => h x (by simp [hx]))
    simp [List.takeWhile_cons, List.dropWhile_cons, hc, hrec.1, hrec.2]

theorem natToDecimalChars_length_pos (n : Nat) : 1 ≤ (natToDecimalChars n).length := by
  by_cases h : n = 0
  · subst h; simp [natToDecimalChars]
  · have := natToDecimalChars_length_ge n 0 (by simpa using Nat.one_le_iff_ne_zero.mpr h)
    omega

theorem natToDecimalChars_not_isEmpty (n : Nat) : (natToDecimalChars n).isEmpty = false := by
  have := natToDecimalChars_length_pos n
  cases hh : natToDecimalChars n with
  | nil => rw [hh] at this; simp at this
  | cons c l => simp

theorem digitsVal_cons_zero (ds : List Nat) : digitsVal (0 :: ds) = digitsVal ds := rfl

theorem digitCharsVal_padLeftZeros (k : Nat) (cs : List Char) :
    digitCharsVal (padLeftZeros k cs) = digitCharsVal cs := by
  unfold padLeftZeros digitCharsVal
  rw [List.map_append, List.map_replicate]
  have hz : (('0' : Char).toNat - 48) = 0 := by decide
  rw [hz]
  generalize k - cs.length = z
  induction z with
  | zero => simp
  | succ z ih =>
    rw [List.replicate_succ, List.cons_append, digitsVal_cons_zero]
    exact ih

theorem padLeftZeros_all_digit (k : Nat) (cs : List Char)
    (h : ∀ c ∈ cs, c.isDigit = true) : ∀ c ∈ padLeftZeros k cs, c.isDigit = true := by
  intro c hc
  rw [padLeftZeros, List.mem_append] at hc
  rcases hc with hc | hc
  · rw [List.eq_of_mem_replicate hc]; decide
  · exact h c hc

theorem padLeftZeros_length (k : Nat) (cs : List Char) (h : cs.length ≤ k) :
    (padLeftZeros k cs).length = k := by
  simp [padLeftZeros]
  omega

set_option maxHeartbeats 1000000 in
theorem ratFromChars_floatString (a : ℚ) (k : Nat) :
    ratFromChars ((if 0 ≤ a then ['+'] else []) ++ ratFloatString a k) =
      some (mkRat ((if a.num < 0 then -1 else 1) * ratRoundedScaled a k) (10 ^ k)) := by
  set m := ratRoundedScaled a k with hm
  have hsplit0 : ∀ l : List Char, (∀ x ∈ l, Char.isDigit x = true) →
      l.takeWhile Char.isDigit = l ∧ l.dropWhile Char.isDigit = [] :=
    fun l h => digits_run_all Char.isDigit l h
  by_cases hk : k = 0
  · -- no fractional digits
    subst hk
    have hrun := digits_run_all Char.isDigit (natToDecimalChars m)
      (natToDecimalChars_all_digit m)
    by_cases ha : 0 ≤ a
    · have hnum : ¬ (a.num < 0) := by
        have := Rat.num_nonneg.mpr ha
        omega
      rw [if_pos ha, if_neg hnum]
      rw [ratFloatString]
      rw [if_pos rfl, if_neg hnum]
      simp only [List.nil_append, List.cons_append, List.singleton_append]
      rw [ratFromChars]
      simp only [hrun.1, hrun.2, natToDecimalChars_not_isEmpty, Bool.false_eq_true,
        if_false, digitCharsVal_natToDecimalChars, pow_zero]
    · have hnum : a.num < 0 := by
        have : ¬ (0 ≤ a.num) := fun hc => ha (Rat.num_nonneg.mp hc)
        omega
      rw [if_neg ha, if_pos hnum]
      rw [ratFloatString]
      rw [if_pos rfl, if_pos hnum]
      simp only [List.nil_append, List.cons_append, List.singleton_append]
      rw [ratFromChars]
      simp only [hrun.1, hrun.2, natToDecimalChars_not_isEmpty, Bool.false_eq_true,
        if_false, digitCharsVal_natToDecimalChars, pow_zero]
      norm_num
  · -- k fractional digits
    have hk1 : 1 ≤ k := by omega
    have hfraclen : (natToDecimalChars (m % 10 ^ k)).length ≤ k :=
      natToDecimalChars_length_le _ _ (Nat.mod_lt _ (by positivity)) hk1
    have hfrac_all := padLeftZeros_all_digit k _ (natToDecimalChars_all_digit (m % 10 ^ k))
    have hrun1 := digits_run_split Char.isDigit (natToDecimalChars (m / 10 ^ k))
      (padLeftZeros k (natToDecimalChars (m % 10 ^ k))) '.'
      (natToDecimalChars_all_digit _) (by decide)
    have hrun2 := digits_run_all Char.isDigit
      (padLeftZeros k (natToDecimalChars (m % 10 ^ k))) hfrac_all
    have hval : digitCharsVal (padLeftZeros k (natToDecimalChars (m % 10 ^ k))) =
        m % 10 ^ k := by
      rw [digitCharsVal_padLeftZeros, digitCharsVal_natToDecimalChars]
    have hlen : (padLeftZeros k (natToDecimalChars (m % 10 ^ k))).length = k :=
      padLeftZeros_length k _ hfraclen
    have hdm : (m / 10 ^ k) * 10 ^ k + m % 10 ^ k = m := by
      rw [Nat.mul_comm]
      exact Nat.div_add_mod m (10 ^ k)
    have hdmi : (↑(m / 10 ^ k) * 10 ^ k + ↑(m % 10 ^ k) : Int) = (m : Int) := by
      exact_mod_cast hdm
    by_cases ha : 0 ≤ a
    · have hnum : ¬ (a.num < 0) := by
        have := Rat.num_nonneg.mpr ha
        omega
      rw [if_pos ha, if_neg hnum]
      rw [ratFloatString]
      rw [if_neg hk, if_neg hnum]
      simp only [List.nil_append, List.cons_append, List.singleton_append, List.append_assoc]
      rw [ratFromChars]
      simp only [hrun1.1, hrun1.2, hrun2.1, hrun2.2, natToDecimalChars_not_isEmpty,
        Bool.false_eq_true, Bool.false_and, if_false, hval, hlen,
        digitCharsVal_natToDecimalChars]
      rw [hdmi]
    · have hnum : a.num < 0 := by
        have : ¬ (0 ≤ a.num) := fun hc => ha (Rat.num_nonneg.mp hc)
        omega
      rw [if_neg ha, if_pos hnum]
      rw [ratFloatString]
      rw [if_neg hk, if_pos hnum]
      simp only [List.nil_append, List.cons_append, List.singleton_append, List.append_assoc]
      rw [ratFromChars]
      simp only [hrun1.1, hrun1.2, hrun2.1, hrun2.2, natToDecimalChars_not_isEmpty,
        Bool.false_eq_true, Bool.false_and, if_false, hval, hlen,
        digitCharsVal_natToDecimalChars]
      rw [hdmi]
      norm_num

theorem stripCount_mul (p : Nat) (fuel : Nat) :
    ∀ n, n = p ^ (stripCount p fuel n).1 * (stripCount p fuel n).2 := by
  induction fuel with
  | zero => intro n; simp [stripCount]
  | succ fuel ih =>
    intro n
    by_cases h : n ≠ 0 ∧ n % p = 0
    · have hdvd : p ∣ n := Nat.dvd_of_mod_eq_zero h.2
      have hrec := ih (n / p)
      simp only [stripCount, if_pos h]
      rw [pow_succ]
      calc n = p * (n / p) := (Nat.mul_div_cancel' hdvd).symm
        _ = p * (p ^ (stripCount p fuel (n / p)).1 * (stripCount p fuel (n / p)).2) := by
            rw [← hrec]
        _ = p ^ (stripCount p fuel (n / p)).1 * p * (stripCount p fuel (n / p)).2 := by ring
    · simp [stripCount, if_neg h]

theorem stripCount_not_dvd (p : Nat) (hp : 2 ≤ p) :
    ∀ fuel n, 0 < n → n ≤ fuel → ¬ p ∣ (stripCount p fuel n).2 := by
  intro fuel
  induction fuel with
  | zero => intro n h0 h1; omega
  | succ fuel ih =>
    intro n h0 hle
    by_cases h : n ≠ 0 ∧ n % p = 0
    · have hdvd : p ∣ n := Nat.dvd_of_mod_eq_zero h.2
      have hplen : p ≤ n := Nat.le_of_dvd h0 hdvd
      have hlt : n / p < n := Nat.div_lt_self h0 (by omega)
      have hpos : 0 < n / p := Nat.div_pos hplen (by omega)
      simp only [stripCount, if_pos h]
      exact ih (n / p) hpos (by omega)
    · simp only [stripCount, if_neg h]
      intro hdvd
      obtain ⟨c, rfl⟩ := hdvd
      exact h ⟨by omega, Nat.mul_mod_right p c⟩

theorem ratPrecision_terminating (a : ℚ) (i j : ℕ) (hden : a.den = 2 ^ i * 5 ^ j) :
    ∃ l : ℕ, ratPrecision a = (l, 0) ∧ a.den ∣ 10 ^ l := by
  have hdpos : 0 < a.den := Nat.pos_of_ne_zero a.den_nz
  obtain ⟨c2, m2, hsc2⟩ : ∃ c m, stripCount 2 a.den a.den = (c, m) := ⟨_, _, rfl⟩
  have h2 : a.den = 2 ^ c2 * m2 := by
    have := stripCount_mul 2 a.den a.den
    rw [hsc2] at this
    exact this
  have h2nd : ¬ 2 ∣ m2 := by
    have := stripCount_not_dvd 2 (by norm_num) a.den a.den hdpos le_rfl
    rw [hsc2] at this
    exact this
  have hm2pos : 0 < m2 := by
    rcases Nat.eq_zero_or_pos m2 with h | h
    · rw [h, Nat.mul_zero] at h2; omega
    · exact h
  obtain ⟨c5, m5, hsc5⟩ : ∃ c m, stripCount 5 m2 m2 = (c, m) := ⟨_, _, rfl⟩
  have h5 : m2 = 5 ^ c5 * m5 := by
    have := stripCount_mul 5 m2 m2
    rw [hsc5] at this
    exact this
  have h5nd : ¬ 5 ∣ m5 := by
    have := stripCount_not_dvd 5 (by norm_num) m2 m2 hm2pos le_rfl
    rw [hsc5] at this
    exact this
  have hm5_dvd_m2 : m5 ∣ m2 := ⟨5 ^ c5, by rw [h5]; ring⟩
  have h2nd' : ¬ 2 ∣ m5 := fun hc => h2nd (hc.trans hm5_dvd_m2)
  have hm5_dvd_d : m5 ∣ a.den := hm5_dvd_m2.trans ⟨2 ^ c2, by rw [h2]; ring⟩
  have hcop2 : Nat.Coprime m5 2 :=
    ((Nat.Prime.coprime_iff_not_dvd Nat.prime_two).mpr h2nd').symm
  have hcop5 : Nat.Coprime m5 5 :=
    ((Nat.Prime.coprime_iff_not_dvd Nat.prime_five).mpr h5nd).symm
  have hcop : Nat.Coprime m5 (2 ^ i * 5 ^ j) :=
    Nat.Coprime.mul_right (hcop2.pow_right i) (hcop5.pow_right j)
  have hone : m5 = 1 := by
    have hdvd' : m5 ∣ 2 ^ i * 5 ^ j := hden ▸ hm5_dvd_d
    exact Nat.Coprime.eq_one_of_dvd hcop hdvd'
  refine ⟨max c2 c5, ?_, ?_⟩
  · simp only [ratPrecision, hsc2, hsc5]
    rw [if_pos hone]
  · have hd : a.den = 2 ^ c2 * 5 ^ c5 := by rw [h2, h5, hone, Nat.mul_one]
    have h10 : (10 : Nat) ^ max c2 c5 = 2 ^ max c2 c5 * 5 ^ max c2 c5 := by
      rw [← Nat.mul_pow]
    rw [hd, h10]
    exact Nat.mul_dvd_mul (Nat.pow_dvd_pow 2 (Nat.le_max_left _ _))
      (Nat.pow_dvd_pow 5 (Nat.le_max_right _ _))

/-- The decode–encode round trip on every rational whose denominator has
only 2 and 5 as prime factors (terminating decimal expansion). -/
theorem amountRoundtripDecimal (a : ℚ) (hsm : ∃ i j : ℕ, a.den = 2 ^ i * 5 ^ j) :
    amountFromString (amountEncode a) = some a := by
    obtain ⟨i, j, hden⟩ := hsm
    obtain ⟨l, hrp, hdvd10⟩ := ratPrecision_terminating a i j hden
    have hden_pos : 0 < a.den := Nat.pos_of_ne_zero a.den_nz
    have hk : (ratPrecision a).1 + (ratPrecision a).2 = l := by
      rw [hrp]
      simp
    have hdvd : a.den ∣ a.num.natAbs * 10 ^ l := Dvd.dvd.mul_left hdvd10 _
    have hmod : (a.num.natAbs * 10 ^ l) % a.den = 0 := by
      obtain ⟨c, hc⟩ := hdvd
      rw [hc]
      exact Nat.mul_mod_right a.den c
    have hround : ratRoundedScaled a l = a.num.natAbs * 10 ^ l / a.den := by
      rw [ratRoundedScaled]
      rw [hmod, Nat.mul_zero, if_neg (by omega), Nat.add_zero]
    have hstring : amountFromString (amountEncode a) =
        some (mkRat ((if a.num < 0 then -1 else 1) * ratRoundedScaled a l) (10 ^ l)) := by
      show ratFromChars (amountEncodeChars a) = _
      rw [amountEncodeChars, amountString, hk]
      exact ratFromChars_floatString a l
    rw [hstring]
    congr 1
    rw [hround, Rat.mkRat_eq_div]
    have hnum_eq : ((if a.num < 0 then (-1 : Int) else 1) *
        ((a.num.natAbs * 10 ^ l / a.den : ℕ) : Int)) * (a.den : Int) =
        a.num * 10 ^ l := by
      have hN : ((a.num.natAbs * 10 ^ l / a.den : ℕ) : Int) * (a.den : Int) =
          (a.num.natAbs : Int) * 10 ^ l := by
        exact_mod_cast Nat.div_mul_cancel hdvd
      calc ((if a.num < 0 then (-1 : Int) else 1) *
            ((a.num.natAbs * 10 ^ l / a.den : ℕ) : Int)) * (a.den : Int)
          = (if a.num < 0 then (-1 : Int) else 1) *
            (((a.num.natAbs * 10 ^ l / a.den : ℕ) : Int) * (a.den : Int)) := by ring
        _ = (if a.num < 0 then (-1 : Int) else 1) * ((a.num.natAbs : Int) * 10 ^ l) := by
            rw [hN]
        _ = ((if a.num < 0 then (-1 : Int) else 1) * (a.num.natAbs : Int)) * 10 ^ l := by
            ring
        _ = a.num * 10 ^ l := by
            have hs : (if a.num < 0 then (-1 : Int) else 1) * (a.num.natAbs : Int) =
                a.num := by
              by_cases hn : a.num < 0
              · rw [if_pos hn]
                omega
              · rw [if_neg hn]
                omega
            rw [hs]
    have hmul_den : a * (a.den : ℚ) = (a.num : ℚ) := by
      nth_rewrite 1 [← Rat.num_div_den a]
      exact div_mul_cancel₀ _ (by positivity)
    rw [div_eq_iff (show ((10 ^ l : ℕ) : ℚ) ≠ 0 by positivity)]
    apply mul_right_cancel₀ (show ((a.den : ℚ)) ≠ 0 by positivity)
    rw [show a * ((10 ^ l : ℕ) : ℚ) * (a.den : ℚ) =
      (a * (a.den : ℚ)) * ((10 ^ l : ℕ) : ℚ) from by ring]
    rw [hmul_den]
    exact_mod_cast hnum_eq

/-- C2 (amended).  The encoded text always begins with an explicit sign,
`+` exactly when the amount is non-negative (zero included); and the
decode–encode round trip recovers every rational whose denominator has
only 2 and 5 as prime factors, i.e. every rational with a terminating
decimal expansion — exactly the rationals the decimal rendering can
represent. -/
theorem c2_amount_roundtrip :
    (∀ a : ℚ, (amountEncodeChars a).head? = some (if 0 ≤ a then '+' else '-')) ∧
    (∀ a : ℚ, (∃ i j : ℕ, a.den = 2 ^ i * 5 ^ j) →
      amountFromString (amountEncode a) = some a) := by
  constructor
  · intro a
    by_cases ha : 0 ≤ a
    · rw [if_pos ha, amountEncodeChars, if_pos ha]
      rfl
    · have hnum : a.num < 0 := by
        have : ¬ (0 ≤ a.num) := fun hc => ha (Rat.num_nonneg.mp hc)
        omega
      rw [if_neg ha, amountEncodeChars, if_neg ha]
      simp only [amountString, ratFloatString, if_pos hnum]
      by_cases hk : (ratPrecision a).1 + (ratPrecision a).2 = 0
      · rw [if_pos hk]
        rfl
      · rw [if_neg hk]
        rfl
  · intro a hsm
    exact amountRoundtripDecimal a hsm

/-- C2 counterexample.  The frozen claim asserts the round trip for every
rational; at `a = 1/3` the rendered text is `+0.3` (one repeating period,
per the precision computation), which decodes to `3/10 ≠ 1/3`. -/
theorem c2_counterexample :
    amountFromString (amountEncode (mkRat 1 3)) = some (mkRat 3 10) ∧
    mkRat 3 10 ≠ mkRat 1 3 := by
  decide

/-- Robustness of the C2 correction: no finite rendering precision can
make `1/3` round-trip — the parsed value of the rendered decimal always
has a power-of-ten denominator. -/
theorem mkRat_den_dvd (n : Int) (d : Nat) : (mkRat n d).den ∣ d := by
  have h := Rat.den_dvd n (d : Int)
  rw [← Rat.mkRat_eq_divInt] at h
  exact_mod_cast h

theorem amountThirdNeverRecovered (k : Nat) :
    ratFromChars ((if 0 ≤ (mkRat 1 3 : ℚ) then ['+'] else []) ++
      ratFloatString (mkRat 1 3) k) ≠ some (mkRat 1 3) := by
  rw [ratFromChars_floatString]
  intro hc
  rw [Option.some.injEq] at hc
  have hdvd : (mkRat 1 3 : ℚ).den ∣ 10 ^ k := hc ▸ mkRat_den_dvd _ _
  have hden3 : (mkRat 1 3 : ℚ).den = 3 := by decide
  rw [hden3] at hdvd
  have h3 : (3 : ℕ) ∣ 10 := Nat.Prime.dvd_of_dvd_pow (by norm_num) hdvd
  norm_num at h3

/-- C2 witness: the amended claim at the terminating amount `a = 5`, which
encodes as `+5` and decodes back to 5. -/
theorem c2_amount_roundtrip_witness :
    amountFromString (amountEncode 5) = some 5 ∧
    (amountEncodeChars 5).head? = some (if (0 : ℚ) ≤ 5 then '+' else '-') :=
  ⟨c2_amount_roundtrip.2 5 ⟨0, 0, by decide⟩, c2_amount_roundtrip.1 5⟩
/-! ### Except bind helper -/

theorem except_bind_ok (a : α) (f : α → Except ε β) :
    (Except.ok a >>= f : Except ε β) = f a := rfl

theorem unmarshalCalendarModel_marshal (c : CalendarModel) :
    unmarshalCalendarModel (marshalCalendarModel c) = .ok c := by
  cases c <;> rfl

/-! ### Claims C6 and C7: the DataValue decode dispatch -/

/-- C6.  If the wire object's `error` field is a non-empty string and its
`type` field passes the tolerant probe, decoding short-circuits to the
error variant carrying that string, whatever else the object holds. -/
theorem c6_error_priority (fields : List (String × Json)) (e ty : String)
    (herr : jLookup fields "error" = some (.str e)) (hne : e ≠ "")
    (hty : decodeStringField fields "type" = .ok ty) :
    unmarshalDataValue (.obj fields) = .ok (.err e) := by
  have herr2 : decodeStringField fields "error" = .ok e := by
    rw [decodeStringField, herr]
  simp only [unmarshalDataValue]
  rw [hty, herr2]
  simp only [except_bind_ok]
  rw [if_pos hne]

/-- C6 witness: an object carrying both a discriminator and a non-empty
error decodes to the error variant. -/
theorem c6_error_priority_witness :
    unmarshalDataValue (.obj [("type", .str "string"), ("error", .str "boom"),
      ("value", .str "x")]) = .ok (.err "boom") :=
  c6_error_priority
    [("type", .str "string"), ("error", .str "boom"), ("value", .str "x")]
    "boom" "string" rfl (by decide) rfl

/-- C6 counterexample: with the `error` field present but empty, decoding
does not yield an error variant carrying that string; it falls through to
the discriminator dispatch and fails outright. -/
theorem c6_counterexample :
    unmarshalDataValue (.obj [("error", .str "")]) =
      .error "unknown data value type \"\"" := by rfl

/-- C7.  A `time`-typed wire value whose timestamp text fails temporal
parsing still decodes successfully, to the error variant carrying the
parse-failure message. -/
theorem c7_time_soft_fail (ts : String) (p : Int) (c : CalendarModel) (e : String)
    (hp : parseTime ts = .error e) :
    unmarshalDataValue (.obj [("type", .str "time"),
      ("value", .obj [("time", .str ts), ("precision", .num (p : ℚ)),
        ("calendarmodel", marshalCalendarModel c)])]) = .ok (.err e) := by
  cases c
  case Gregorian =>
    have hrw : unmarshalDataValue (.obj [("type", .str "time"),
        ("value", .obj [("time", .str ts), ("precision", .num (p : ℚ)),
          ("calendarmodel", marshalCalendarModel .Gregorian)])]) =
        (match parseTime ts with
         | .error e2 => .ok (.err e2)
         | .ok t => .ok (.time ⟨t, p, .Gregorian⟩)) := rfl
    rw [hrw, hp]
  case Julian =>
    have hrw : unmarshalDataValue (.obj [("type", .str "time"),
        ("value", .obj [("time", .str ts), ("precision", .num (p : ℚ)),
          ("calendarmodel", marshalCalendarModel .Julian)])]) =
        (match parseTime ts with
         | .error e2 => .ok (.err e2)
         | .ok t => .ok (.time ⟨t, p, .Julian⟩)) := rfl
    rw [hrw, hp]

/-- C7 witness: the unparsable timestamp `bogus` degrades to an error
variant carrying the `parseTime` message. -/
theorem c7_time_soft_fail_witness :
    parseTime "bogus" = .error "unable to parse time \"bogus\"" ∧
    unmarshalDataValue (.obj [("type", .str "time"),
      ("value", .obj [("time", .str "bogus"), ("precision", .num ((9 : Int) : ℚ)),
        ("calendarmodel", marshalCalendarModel .Gregorian)])]) =
      .ok (.err "unable to parse time \"bogus\"") :=
  ⟨rfl, c7_time_soft_fail "bogus" 9 .Gregorian "unable to parse time \"bogus\"" rfl⟩

/-! ### Claim C3: year-precision timestamps -/

theorem pad2Chars_zero : pad2Chars 0 = ['0', '0'] := rfl

/-- C3.  Decoding `+1950-00-00T00:00:00Z` at precision `Year` normalizes
month and day to 1; encoding writes `00` for the month whenever the
precision is below `Month` and `00` for the day whenever it is below
`Day`; re-encoding the decoded value restores the original text. -/
theorem c3_year_precision_time :
    unmarshalTimeValue (.obj [("time", .str "+1950-00-00T00:00:00Z"),
      ("precision", .num (Year : ℚ)),
      ("calendarmodel", .str "https://www.wikidata.org/wiki/Q1985727")]) =
      .ok ⟨⟨1950, 1, 1, 0, 0, 0⟩, Year, .Gregorian⟩ ∧
    (∀ (t : GoTime) (p : TimePrecision), p < Month →
      ∃ ys rest, (formatTime t p).data = ys ++ '-' :: '0' :: '0' :: '-' :: rest) ∧
    (∀ (t : GoTime) (p : TimePrecision), p < Day →
      ∃ ys rest, (formatTime t p).data = ys ++ '-' :: '0' :: '0' :: 'T' :: rest) ∧
    formatTime ⟨1950, 1, 1, 0, 0, 0⟩ Year = "+1950-00-00T00:00:00Z" := by
  refine ⟨by rfl, ?_, ?_, by rfl⟩
  · intro t p hp
    refine ⟨formatYearChars (if t.year < 1 then t.year - 1 else t.year),
      pad2Chars (if p < Day then 0 else t.day) ++ 'T' :: (pad2Chars t.hour ++
        ':' :: (pad2Chars t.minute ++ ':' :: (pad2Chars t.second ++ ['Z']))), ?_⟩
    rw [formatTime_data, if_pos hp]
    rfl
  · intro t p hp
    refine ⟨formatYearChars (if t.year < 1 then t.year - 1 else t.year) ++
      '-' :: pad2Chars (if p < Month then 0 else t.month),
      pad2Chars t.hour ++ ':' :: (pad2Chars t.minute ++
        ':' :: (pad2Chars t.second ++ ['Z'])), ?_⟩
    rw [formatTime_data, if_pos hp]
    simp only [pad2Chars_zero, List.append_assoc, List.cons_append, List.nil_append]

/-- C3 witness: the general emission rules of `c3_year_precision_time`
applied at a concrete time value, at precisions `Year` and `Month`. -/
theorem c3_year_precision_time_witness :
    (Year < Month ∧ ∃ ys rest, (formatTime ⟨1950, 5, 3, 0, 0, 0⟩ Year).data =
      ys ++ '-' :: '0' :: '0' :: '-' :: rest) ∧
    (Month < Day ∧ ∃ ys rest, (formatTime ⟨1950, 5, 3, 0, 0, 0⟩ Month).data =
      ys ++ '-' :: '0' :: '0' :: 'T' :: rest) :=
  ⟨⟨by decide, c3_year_precision_time.2.1 ⟨1950, 5, 3, 0, 0, 0⟩ Year (by decide)⟩,
   ⟨by decide, c3_year_precision_time.2.2.1 ⟨1950, 5, 3, 0, 0, 0⟩ Month (by decide)⟩⟩

/-! ### Field lookup machinery -/

@[simp] theorem option_none_orElse (f : Unit → Option α) :
    (Option.orElse none f) = f () := rfl

@[simp] theorem option_some_orElse (a : α) (f : Unit → Option α) :
    (Option.orElse (some a) f) = some a := rfl

@[simp] theorem jLookup_nil (k : String) : jLookup [] k = none := rfl

@[simp] theorem option_orElse_none (o : Option α) :
    (Option.orElse o (fun _ => none)) = o := by
  cases o <;> rfl

@[simp] theorem jLookup_append (l1 l2 : List (String × Json)) (k : String) :
    jLookup (l1 ++ l2) k = (jLookup l2 k).orElse (fun _ => jLookup l1 k) := by
  unfold jLookup
  rw [List.reverse_append, List.find?_append]
  cases h : List.find? (fun kv => kv.1 == k) l2.reverse <;>
    simp [Option.orElse, h]

theorem jLookup_singleton (k1 : String) (v : Json) (k : String) :
    jLookup [(k1, v)] k = if k1 = k then some v else none := by
  by_cases h : k1 = k <;> simp [jLookup, h]

@[simp] theorem jLookup_cons (k1 : String) (v : Json) (rest : List (String × Json))
    (k : String) :
    jLookup ((k1, v) :: rest) k =
      (jLookup rest k).orElse (fun _ => if k1 = k then some v else none) := by
  have hsplit : (k1, v) :: rest = [(k1, v)] ++ rest := rfl
  rw [hsplit, jLookup_append, jLookup_singleton]

@[simp] theorem jLookup_optField (key : String) (o : Option Json) (k : String) :
    jLookup (optField key o) k = if key = k then o else none := by
  cases o with
  | none => simp [optField, jLookup_nil]
  | some j => rw [optField, jLookup_singleton]

/-! ### Field decoding against a computed lookup -/

theorem decodeStringField_some (fields : List (String × Json)) (key s : String)
    (hl : jLookup fields key = some (.str s)) :
    decodeStringField fields key = .ok s := by
  rw [decodeStringField, hl]

theorem decodeStringField_of_lookup (fields : List (String × Json)) (key s : String)
    (hl : jLookup fields key = if s = "" then none else some (.str s)) :
    decodeStringField fields key = .ok s := by
  by_cases h : s = ""
  · subst h
    rw [decodeStringField, hl, if_pos rfl]
  · rw [decodeStringField, hl, if_neg h]

theorem decodeIntField_some (fields : List (String × Json)) (key : String) (n : Int)
    (hl : jLookup fields key = some (.num (n : ℚ))) :
    decodeIntField fields key = .ok n := by
  rw [decodeIntField, hl]
  dsimp only
  rw [if_pos (by simp : ((n : ℚ)).den = 1)]
  simp

theorem decodeFieldWith_some (fields : List (String × Json)) (key : String)
    (dec : Json → Except String α) (dflt : α) (j : Json) (x : α)
    (hl : jLookup fields key = some j) (hdec : dec j = .ok x) :
    decodeFieldWith fields key dec dflt = .ok x := by
  rw [decodeFieldWith, hl]
  dsimp only
  rw [hdec]

theorem decodeOptFieldWith_mapped (fields : List (String × Json)) (key : String)
    (dec : Json → Except String α) (o : Option α) (enc : α → Json)
    (hl : jLookup fields key = o.map enc)
    (hdec : ∀ x, o = some x → dec (enc x) = .ok x)
    (hnn : ∀ x, enc x ≠ .null) :
    decodeOptFieldWith fields key dec = .ok o := by
  cases o with
  | none =>
      rw [Option.map_none'] at hl
      rw [decodeOptFieldWith, hl]
  | some x =>
      rw [Option.map_some'] at hl
      have hd := hdec x rfl
      rw [decodeOptFieldWith, hl]
      cases henc : enc x <;>
        first
        | exact absurd henc (hnn x)
        | (rw [henc] at hd; dsimp only; rw [hd]; rfl)

theorem decodeList_map (dec : Json → Except String α) (enc : α → Json) (xs : List α)
    (hdec : ∀ x ∈ xs, dec (enc x) = .ok x) :
    decodeList dec (xs.map enc) = .ok xs := by
  induction xs with
  | nil => rfl
  | cons x xs ih =>
      simp only [List.map_cons, decodeList]
      rw [hdec x (by simp)]
      simp only [except_bind_ok]
      rw [ih (fun y hy => hdec y (by simp [hy]))]
      rfl

theorem decodeArrField_omitted (fields : List (String × Json)) (key : String)
    (dec : Json → Except String α) (enc : α → Json) (xs : List α)
    (hl : jLookup fields key =
      if xs.isEmpty then none else some (.arr (xs.map enc)))
    (hdec : ∀ x ∈ xs, dec (enc x) = .ok x) :
    decodeFieldWith fields key (decodeArr dec) [] = .ok xs := by
  cases xs with
  | nil =>
      simp at hl
      rw [decodeFieldWith, hl]
  | cons x xs =>
      simp only [List.isEmpty_cons, Bool.false_eq_true, if_false] at hl
      rw [decodeFieldWith, hl]
      exact decodeList_map dec enc (x :: xs) hdec

theorem decodeObjMapAux_map (dec : Json → Except String α) (enc : α → Json)
    (m : List (String × α))
    (hdec : ∀ kv ∈ m, dec (enc kv.2) = .ok kv.2) :
    decodeObjMapAux dec (m.map (fun kv => (kv.1, enc kv.2))) = .ok m := by
  induction m with
  | nil => rfl
  | cons kv m ih =>
      obtain ⟨k, v⟩ := kv
      simp only [List.map_cons, decodeObjMapAux]
      rw [hdec ⟨k, v⟩ (by simp)]
      simp only [except_bind_ok]
      rw [ih (fun y hy => hdec y (by simp [hy]))]
      rfl

theorem decodeObjMapField_omitted (fields : List (String × Json)) (key : String)
    (dec : Json → Except String α) (enc : α → Json) (m : List (String × α))
    (hl : jLookup fields key = if m.isEmpty then none
      else some (.obj (m.map (fun kv => (kv.1, enc kv.2)))))
    (hdec : ∀ kv ∈ m, dec (enc kv.2) = .ok kv.2) :
    decodeFieldWith fields key (decodeObjMap dec) [] = .ok m := by
  cases m with
  | nil =>
      simp at hl
      rw [decodeFieldWith, hl]
  | cons kv m =>
      simp only [List.isEmpty_cons, Bool.false_eq_true, if_false] at hl
      rw [decodeFieldWith, hl]
      exact decodeObjMapAux_map dec enc (kv :: m) hdec

/-! ### Enumeration round trips -/

theorem unmarshalEntityType_marshal (t : EntityType) :
    unmarshalEntityType (marshalEntityType t) = .ok t := by
  cases t <;> rfl

theorem unmarshalWikiBaseEntityType_marshal (t : WikiBaseEntityType) :
    unmarshalWikiBaseEntityType (marshalWikiBaseEntityType t) = .ok t := by
  cases t <;> rfl

theorem unmarshalStatementType_marshal (t : StatementType) :
    unmarshalStatementType (marshalStatementType t) = .ok t := by
  cases t
  rfl

theorem unmarshalStatementRank_marshal (t : StatementRank) :
    unmarshalStatementRank (marshalStatementRank t) = .ok t := by
  cases t <;> rfl

theorem unmarshalSnakType_marshal (t : SnakType) :
    unmarshalSnakType (marshalSnakType t) = .ok t := by
  cases t <;> rfl

theorem unmarshalDataType_marshal (t : DataType) :
    unmarshalDataType (marshalDataType t) = .ok t := by
  cases t <;> rfl

/-! ### Amounts with terminating decimal expansions -/

theorem decimalRatB_spec (a : ℚ) (h : decimalRatB a = true) :
    ∃ i j : ℕ, a.den = 2 ^ i * 5 ^ j := by
  obtain ⟨c2, m2, hsc2⟩ : ∃ c m, stripCount 2 a.den a.den = (c, m) := ⟨_, _, rfl⟩
  obtain ⟨c5, m5, hsc5⟩ : ∃ c m, stripCount 5 m2 m2 = (c, m) := ⟨_, _, rfl⟩
  have h2 : a.den = 2 ^ c2 * m2 := by
    have := stripCount_mul 2 a.den a.den
    rw [hsc2] at this
    exact this
  have h5 : m2 = 5 ^ c5 * m5 := by
    have := stripCount_mul 5 m2 m2
    rw [hsc5] at this
    exact this
  have h1 : m5 = 1 := by
    rw [decimalRatB] at h
    simp only [hsc2] at h
    simp only [hsc5] at h
    simpa using h
  exact ⟨c2, c5, by rw [h2, h5, h1, Nat.mul_one]⟩

theorem unmarshalAmount_marshal (a : ℚ) (h : decimalRatB a = true) :
    unmarshalAmount (.str (amountEncode a)) = .ok a := by
  have hr := amountRoundtripDecimal a (decimalRatB_spec a h)
  simp only [unmarshalAmount]
  rw [hr]

/-! ### Optional-field decoding helpers for concrete spines -/

theorem decodeOptFieldWith_none (fields : List (String × Json)) (key : String)
    (dec : Json → Except String α) (hl : jLookup fields key = none) :
    decodeOptFieldWith fields key dec = .ok none := by
  rw [decodeOptFieldWith, hl]

theorem decodeOptFieldWith_str (fields : List (String × Json)) (key s : String)
    (dec : Json → Except String α) (x : α)
    (hl : jLookup fields key = some (.str s)) (hdec : dec (.str s) = .ok x) :
    decodeOptFieldWith fields key dec = .ok (some x) := by
  rw [decodeOptFieldWith, hl]
  dsimp only
  rw [hdec]
  rfl

/-! ### Payload round trips -/

theorem decodeQuantityPayload_marshal (v : QuantityValue)
    (ha : decimalRatB v.amount = true)
    (hub : v.upperBound.all decimalRatB = true)
    (hlb : v.lowerBound.all decimalRatB = true) :
    decodeQuantityPayload (marshalQuantityValue v) = .ok v := by
  obtain ⟨a, ub, lb, u⟩ := v
  cases ub with
  | none =>
      cases lb with
      | none =>
          have hrw : decodeQuantityPayload (marshalQuantityValue ⟨a, none, none, u⟩) =
              (unmarshalAmount (.str (amountEncode a)) >>= fun am =>
                .ok ⟨am, none, none, u⟩) := rfl
          rw [hrw, unmarshalAmount_marshal a ha]
          rfl
      | some lv =>
          have hlv : decimalRatB lv = true := by simpa [Option.all] using hlb
          have hrw : decodeQuantityPayload (marshalQuantityValue ⟨a, none, some lv, u⟩) =
              (unmarshalAmount (.str (amountEncode a)) >>= fun am =>
                Except.map some (unmarshalAmount (.str (amountEncode lv))) >>= fun lbv =>
                .ok ⟨am, none, lbv, u⟩) := rfl
          rw [hrw, unmarshalAmount_marshal a ha, unmarshalAmount_marshal lv hlv]
          rfl
  | some uv =>
      have huv : decimalRatB uv = true := by simpa [Option.all] using hub
      cases lb with
      | none =>
          have hrw : decodeQuantityPayload (marshalQuantityValue ⟨a, some uv, none, u⟩) =
              (unmarshalAmount (.str (amountEncode a)) >>= fun am =>
                Except.map some (unmarshalAmount (.str (amountEncode uv))) >>= fun ubv =>
                .ok ⟨am, ubv, none, u⟩) := rfl
          rw [hrw, unmarshalAmount_marshal a ha, unmarshalAmount_marshal uv huv]
          rfl
      | some lv =>
          have hlv : decimalRatB lv = true := by simpa [Option.all] using hlb
          have hrw : decodeQuantityPayload (marshalQuantityValue ⟨a, some uv, some lv, u⟩) =
              (unmarshalAmount (.str (amountEncode a)) >>= fun am =>
                Except.map some (unmarshalAmount (.str (amountEncode uv))) >>= fun ubv =>
                Except.map some (unmarshalAmount (.str (amountEncode lv))) >>= fun lbv =>
                .ok ⟨am, ubv, lbv, u⟩) := rfl
          rw [hrw, unmarshalAmount_marshal a ha, unmarshalAmount_marshal uv huv,
            unmarshalAmount_marshal lv hlv]
          rfl

theorem decodeTimePayload_marshal (v : TimeValue) :
    decodeTimePayload (marshalTimeValue v) =
      .ok (formatTime v.time v.precision, v.precision, v.calendar) := by
  obtain ⟨t, p, c⟩ := v
  cases c <;> rfl

/-! ### The DataValue round trip -/

theorem unmarshalDataValue_marshal (v : DataValue) (hv : validDataValueB v = true) :
    unmarshalDataValue (marshalDataValue v) = .ok v := by
  cases v with
  | err e =>
      have he : e ≠ "" := by simpa [validDataValueB] using hv
      rw [show unmarshalDataValue (marshalDataValue (.err e)) =
          (if e ≠ "" then .ok (.err e)
           else .error ("unknown data value type \"" ++ "" ++ "\"")) from rfl,
        if_pos he]
  | str s => rfl
  | entityID w =>
      obtain ⟨t, i⟩ := w
      cases t <;> rfl
  | globeCoordinate w => rfl
  | monolingualText w => rfl
  | quantity w =>
      have hv' : decimalRatB w.amount = true ∧ w.upperBound.all decimalRatB = true ∧
          w.lowerBound.all decimalRatB = true := by
        simpa [validDataValueB, Bool.and_eq_true, and_assoc] using hv
      have hrw : unmarshalDataValue (marshalDataValue (.quantity w)) =
          (decodeQuantityPayload (marshalQuantityValue w) >>= fun q =>
            .ok (.quantity q)) := rfl
      rw [hrw, decodeQuantityPayload_marshal w hv'.1 hv'.2.1 hv'.2.2]
      rfl
  | time w =>
      have hv' : timeRoundTrips w.time w.precision := by
        simpa [validDataValueB] using hv
      have hrw : unmarshalDataValue (marshalDataValue (.time w)) =
          (decodeTimePayload (marshalTimeValue w) >>= fun tv =>
            match parseTime tv.1 with
            | .error e => .ok (.err e)
            | .ok t => .ok (.time ⟨t, tv.2.1, tv.2.2⟩)) := rfl
      rw [hrw, decodeTimePayload_marshal w]
      simp only [except_bind_ok]
      rw [parseTime_formatTime w.time w.precision hv']

/-! ### Structure-level round trips -/

theorem marshalDataValue_ne_null (x : DataValue) : marshalDataValue x ≠ .null := by
  cases x <;> simp [marshalDataValue]

theorem marshalDataType_ne_null (x : DataType) : marshalDataType x ≠ .null := by
  cases x <;> simp [marshalDataType]

theorem unmarshalLanguageValue_marshal (lv : LanguageValue) :
    unmarshalLanguageValue (marshalLanguageValue lv) = .ok lv := rfl

theorem unmarshalSiteLink_marshal (sl : SiteLink) :
    unmarshalSiteLink (marshalSiteLink sl) = .ok sl := by
  have h1 : jLookup (siteLinkFields sl) "site" = some (.str sl.site) := by
    simp [siteLinkFields, optListField, optStrField]
  have h2 : jLookup (siteLinkFields sl) "title" = some (.str sl.title) := by
    simp [siteLinkFields, optListField, optStrField]
  have h3 : jLookup (siteLinkFields sl) "badges" =
      (if sl.badges.isEmpty then none else some (.arr (sl.badges.map Json.str))) := by
    simp [siteLinkFields, optListField, optStrField, marshalStringList]
  have h4 : jLookup (siteLinkFields sl) "url" =
      (if sl.url = "" then none else some (.str sl.url)) := by
    simp [siteLinkFields, optListField, optStrField]
  rw [marshalSiteLink]
  simp only [unmarshalSiteLink]
  rw [decodeStringField_some _ _ _ h1]
  simp only [except_bind_ok]
  rw [decodeStringField_some _ _ _ h2]
  simp only [except_bind_ok]
  rw [decodeArrField_omitted _ _ decodeJsonString Json.str sl.badges h3 (fun x _ => rfl)]
  simp only [except_bind_ok]
  rw [decodeStringField_of_lookup _ _ _ h4]
  simp only [except_bind_ok]

theorem unmarshalSnak_marshal (s : Snak) (hs : validSnakB s = true) :
    unmarshalSnak (marshalSnak s) = .ok s := by
  have hdv : ∀ x, s.datavalue = some x →
      unmarshalDataValue (marshalDataValue x) = .ok x := by
    intro x hx
    have hs' : s.datavalue.all validDataValueB = true := hs
    rw [hx] at hs'
    exact unmarshalDataValue_marshal x (by simpa [Option.all] using hs')
  have h1 : jLookup (snakFields s) "hash" =
      (if s.hash = "" then none else some (.str s.hash)) := by
    simp [snakFields, optStrField]
  have h2 : jLookup (snakFields s) "snaktype" = some (marshalSnakType s.snaktype) := by
    simp [snakFields, optStrField]
  have h3 : jLookup (snakFields s) "property" = some (.str s.property) := by
    simp [snakFields, optStrField]
  have h4 : jLookup (snakFields s) "datatype" = some (marshalDataType s.datatype) := by
    simp [snakFields, optStrField]
  have h5 : jLookup (snakFields s) "datavalue" = s.datavalue.map marshalDataValue := by
    simp [snakFields, optStrField]
  rw [marshalSnak]
  simp only [unmarshalSnak]
  rw [decodeStringField_of_lookup _ _ _ h1]
  simp only [except_bind_ok]
  rw [decodeFieldWith_some _ _ _ _ _ _ h2 (unmarshalSnakType_marshal s.snaktype)]
  simp only [except_bind_ok]
  rw [decodeStringField_some _ _ _ h3]
  simp only [except_bind_ok]
  rw [decodeFieldWith_some _ _ _ _ _ _ h4 (unmarshalDataType_marshal s.datatype)]
  simp only [except_bind_ok]
  rw [decodeOptFieldWith_mapped _ _ _ _ _ h5 hdv marshalDataValue_ne_null]
  simp only [except_bind_ok]

theorem decodeArr_snakList (l : List Snak) (h : l.all validSnakB = true) :
    decodeArr unmarshalSnak (.arr (l.map marshalSnak)) = .ok l := by
  have hr : decodeArr unmarshalSnak (.arr (l.map marshalSnak)) =
      decodeList unmarshalSnak (l.map marshalSnak) := rfl
  rw [hr]
  rw [List.all_eq_true] at h
  exact decodeList_map _ _ l (fun x hx => unmarshalSnak_marshal x (h x hx))

theorem unmarshalReference_marshal (r : Reference) (hr : validReferenceB r = true) :
    unmarshalReference (marshalReference r) = .ok r := by
  have hsn : r.snaks.all (fun kv => kv.2.all validSnakB) = true := by
    have := hr
    simp only [validReferenceB, Bool.and_eq_true] at this
    exact this.2
  have h1 : jLookup (referenceFields r) "hash" =
      (if r.hash = "" then none else some (.str r.hash)) := by
    simp [referenceFields, optStrField, optListField]
  have h2 : jLookup (referenceFields r) "snaks" =
      (if r.snaks.isEmpty then none
       else some (.obj (r.snaks.map (fun kv => (kv.1, .arr (kv.2.map marshalSnak)))))) := by
    simp [referenceFields, optStrField, optListField, marshalSnakMap]
  have h3 : jLookup (referenceFields r) "snaks-order" =
      (if r.snaksOrder.isEmpty then none
       else some (.arr (r.snaksOrder.map Json.str))) := by
    simp [referenceFields, optStrField, optListField, marshalStringList]
  rw [marshalReference]
  simp only [unmarshalReference]
  rw [decodeStringField_of_lookup _ _ _ h1]
  simp only [except_bind_ok]
  rw [decodeObjMapField_omitted _ _ (decodeArr unmarshalSnak)
    (fun l => Json.arr (l.map marshalSnak)) r.snaks h2
    (fun kv hkv => decodeArr_snakList kv.2 (by
      rw [List.all_eq_true] at hsn
      exact hsn kv hkv))]
  simp only [except_bind_ok]
  rw [decodeArrField_omitted _ _ decodeJsonString Json.str r.snaksOrder h3
    (fun x _ => rfl)]
  simp only [except_bind_ok]

theorem unmarshalStatement_marshal (st : Statement) (hst : validStatementB st = true) :
    unmarshalStatement (marshalStatement st) = .ok st := by
  have hv : validSnakB st.mainsnak = true ∧
      st.qualifiers.all (fun kv => kv.2.all validSnakB) = true ∧
      st.references.all validReferenceB = true := by
    have := hst
    simp only [validStatementB, Bool.and_eq_true] at this
    exact ⟨this.1.1.1, this.1.2, this.2⟩
  have h1 : jLookup (statementFields st) "id" = some (.str st.id) := by
    simp [statementFields, optListField]
  have h2 : jLookup (statementFields st) "type" =
      some (marshalStatementType st.type) := by
    simp [statementFields, optListField]
  have h3 : jLookup (statementFields st) "mainsnak" =
      some (marshalSnak st.mainsnak) := by
    simp [statementFields, optListField]
  have h4 : jLookup (statementFields st) "rank" =
      some (marshalStatementRank st.rank) := by
    simp [statementFields, optListField]
  have h5 : jLookup (statementFields st) "qualifiers" =
      (if st.qualifiers.isEmpty then none
       else some (.obj (st.qualifiers.map
         (fun kv => (kv.1, .arr (kv.2.map marshalSnak)))))) := by
    simp [statementFields, optListField, marshalSnakMap]
  have h6 : jLookup (statementFields st) "qualifiers-order" =
      (if st.qualifiersOrder.isEmpty then none
       else some (.arr (st.qualifiersOrder.map Json.str))) := by
    simp [statementFields, optListField, marshalStringList]
  have h7 : jLookup (statementFields st) "references" =
      (if st.references.isEmpty then none
       else some (.arr (st.references.map marshalReference))) := by
    simp [statementFields, optListField]
  rw [marshalStatement]
  simp only [unmarshalStatement]
  rw [decodeStringField_some _ _ _ h1]
  simp only [except_bind_ok]
  rw [decodeFieldWith_some _ _ _ _ _ _ h2 (unmarshalStatementType_marshal st.type)]
  simp only [except_bind_ok]
  rw [decodeFieldWith_some _ _ _ _ _ _ h3 (unmarshalSnak_marshal st.mainsnak hv.1)]
  simp only [except_bind_ok]
  rw [decodeFieldWith_some _ _ _ _ _ _ h4 (unmarshalStatementRank_marshal st.rank)]
  simp only [except_bind_ok]
  rw [decodeObjMapField_omitted _ _ (decodeArr unmarshalSnak)
    (fun l => Json.arr (l.map marshalSnak)) st.qualifiers h5
    (fun kv hkv => decodeArr_snakList kv.2 (by
      have h := hv.2.1
      rw [List.all_eq_true] at h
      exact h kv hkv))]
  simp only [except_bind_ok]
  rw [decodeArrField_omitted _ _ decodeJsonString Json.str st.qualifiersOrder h6
    (fun x _ => rfl)]
  simp only [except_bind_ok]
  rw [decodeArrField_omitted _ _ unmarshalReference marshalReference st.references h7
    (fun x hx => unmarshalReference_marshal x (by
      have h := hv.2.2
      rw [List.all_eq_true] at h
      exact h x hx))]
  simp only [except_bind_ok]

theorem decodeArr_stmtList (l : List Statement) (h : l.all validStatementB = true) :
    decodeArr unmarshalStatement (.arr (l.map marshalStatement)) = .ok l := by
  have hr : decodeArr unmarshalStatement (.arr (l.map marshalStatement)) =
      decodeList unmarshalStatement (l.map marshalStatement) := rfl
  rw [hr]
  rw [List.all_eq_true] at h
  exact decodeList_map _ _ l (fun x hx => unmarshalStatement_marshal x (h x hx))

theorem decodeArr_lvList (l : List LanguageValue) :
    decodeArr unmarshalLanguageValue (.arr (l.map marshalLanguageValue)) = .ok l := by
  have hr : decodeArr unmarshalLanguageValue (.arr (l.map marshalLanguageValue)) =
      decodeList unmarshalLanguageValue (l.map marshalLanguageValue) := rfl
  rw [hr]
  exact decodeList_map _ _ l (fun x _ => unmarshalLanguageValue_marshal x)

theorem unmarshalEntity_marshal (e : Entity) (he : validEntityB e = true) :
    unmarshalEntity (marshalEntity e) = .ok e := by
  have hcl : e.claims.all (fun kv => kv.2.all validStatementB) = true := by
    have := he
    simp only [validEntityB, Bool.and_eq_true] at this
    exact this.2
  have h1 : jLookup (entityFields e) "id" = some (.str e.id) := by
    simp [entityFields, optListField]
  have h2 : jLookup (entityFields e) "type" = some (marshalEntityType e.type) := by
    simp [entityFields, optListField]
  have h3 : jLookup (entityFields e) "datatype" = e.datatype.map marshalDataType := by
    simp [entityFields, optListField]
  have h4 : jLookup (entityFields e) "labels" =
      (if e.labels.isEmpty then none
       else some (.obj (e.labels.map (fun kv => (kv.1, marshalLanguageValue kv.2))))) := by
    simp [entityFields, optListField]
  have h5 : jLookup (entityFields e) "descriptions" =
      (if e.descriptions.isEmpty then none
       else some (.obj (e.descriptions.map
         (fun kv => (kv.1, marshalLanguageValue kv.2))))) := by
    simp [entityFields, optListField]
  have h6 : jLookup (entityFields e) "aliases" =
      (if e.aliases.isEmpty then none
       else some (.obj (e.aliases.map
         (fun kv => (kv.1, .arr (kv.2.map marshalLanguageValue)))))) := by
    simp [entityFields, optListField]
  have h7 : jLookup (entityFields e) "claims" =
      (if e.claims.isEmpty then none
       else some (.obj (e.claims.map
         (fun kv => (kv.1, .arr (kv.2.map marshalStatement)))))) := by
    simp [entityFields, optListField]
  have h8 : jLookup (entityFields e) "sitelinks" =
      (if e.sitelinks.isEmpty then none
       else some (.obj (e.sitelinks.map (fun kv => (kv.1, marshalSiteLink kv.2))))) := by
    simp [entityFields, optListField]
  have h9 : jLookup (entityFields e) "lastrevid" = some (.num (e.lastrevid : ℚ)) := by
    simp [entityFields, optListField]
  rw [marshalEntity]
  simp only [unmarshalEntity]
  rw [decodeStringField_some _ _ _ h1]
  simp only [except_bind_ok]
  rw [decodeFieldWith_some _ _ _ _ _ _ h2 (unmarshalEntityType_marshal e.type)]
  simp only [except_bind_ok]
  rw [decodeOptFieldWith_mapped _ _ _ _ _ h3
    (fun x _ => unmarshalDataType_marshal x) marshalDataType_ne_null]
  simp only [except_bind_ok]
  rw [decodeObjMapField_omitted _ _ unmarshalLanguageValue marshalLanguageValue
    e.labels h4 (fun kv _ => unmarshalLanguageValue_marshal kv.2)]
  simp only [except_bind_ok]
  rw [decodeObjMapField_omitted _ _ unmarshalLanguageValue marshalLanguageValue
    e.descriptions h5 (fun kv _ => unmarshalLanguageValue_marshal kv.2)]
  simp only [except_bind_ok]
  rw [decodeObjMapField_omitted _ _ (decodeArr unmarshalLanguageValue)
    (fun l => Json.arr (l.map marshalLanguageValue)) e.aliases h6
    (fun kv _ => decodeArr_lvList kv.2)]
  simp only [except_bind_ok]
  rw [decodeObjMapField_omitted _ _ (decodeArr unmarshalStatement)
    (fun l => Json.arr (l.map marshalStatement)) e.claims h7
    (fun kv hkv => decodeArr_stmtList kv.2 (by
      rw [List.all_eq_true] at hcl
      exact hcl kv hkv))]
  simp only [except_bind_ok]
  rw [decodeObjMapField_omitted _ _ unmarshalSiteLink marshalSiteLink
    e.sitelinks h8 (fun kv _ => unmarshalSiteLink_marshal kv.2)]
  simp only [except_bind_ok]
  rw [decodeIntField_some _ _ _ h9]
  simp only [except_bind_ok]

/-- C1 (amended).  For every valid entity — unique mapping keys, every
stored data value well-formed for its wire rendering (non-empty error
strings, amounts and bounds with terminating decimal expansions, time
values normalized to their stated precision and in range) — decoding the
encoding returns exactly the entity.  Validity is necessary: a stored
time field below the value's precision is zeroed by the encoder and
renormalized by the decoder, so such entities do not round-trip. -/
theorem c1_entity_roundtrip (e : Entity) (he : validEntityB e = true) :
    unmarshalEntity (marshalEntity e) = .ok e :=
  unmarshalEntity_marshal e he

/-- C1 witness: a concrete valid entity with labels, aliases, a string
statement, a quantity qualifier, a time reference and a site link
round-trips. -/
theorem c1_entity_roundtrip_witness :
    validEntityB witnessEntity = true ∧
    unmarshalEntity (marshalEntity witnessEntity) = .ok witnessEntity :=
  ⟨by decide, c1_entity_roundtrip witnessEntity (by decide)⟩

/-- C1 counterexample.  The frozen claim quantifies over all entities
whose data values hold one variant and whose keys are unique;
`cexTimeEntity` satisfies that, yet its stored `Year`-precision time
value carries month 5, which the encoder zeroes and the decoder
renormalizes to 1 — the round trip returns a different entity. -/
theorem c1_counterexample :
    unmarshalEntity (marshalEntity cexTimeEntity) = .ok cexDecodedEntity ∧
    cexDecodedEntity ≠ cexTimeEntity := by
  constructor
  · rfl
  · decide
